import Mathlib

/-!
# Verification of the balancebeam HTTP message codec

A shallow embedding of `src/proj-2/balancebeam/src/request.rs` and
`src/proj-2/balancebeam/src/response.rs` (the HTTP/1.1 message codec of the
balancebeam proxy), together with proofs about it.

Modelling conventions:

* Bytes are `Nat` (ASCII codes); byte buffers are `List Nat`.
* A TCP stream is modelled as a list of chunks (`ByteStream`).  A `read` into a
  buffer of size `n` takes `min n c.length` bytes off the front chunk `c`
  (capturing that `TcpStream::read` may return fewer bytes than requested; the
  adversary picks the chunk boundaries), and returns `0` bytes at end of
  stream or when the buffer slice is empty, exactly as `Read::read` does.
* Loops (`read_headers`, `read_body`) are written with an explicit fuel
  parameter so that they are structurally recursive and computable by `decide`.
  Each loop iteration that recurses consumes at least one byte from the
  stream, so fuel `streamLen s + 1` is always sufficient; the fuel-exhausted
  branches are unreachable for the top-level entry points.
* The third-party `httparse` / `http` crates are not part of the repository;
  their behaviour (HTTP/1.1 framing, at most 32 header slots, lower-cased
  header names, ordered headers) is modelled from the spec's wire-protocol
  section ("Request line: METHOD SP request-target SP HTTP/1.1 CRLF",
  "Status line: HTTP/1.1 SP code SP reason CRLF", "Headers are name: value
  CRLF, terminated by a blank CRLF", "headers as an ordered multimap
  preserving insertion order", "<= 32 headers").
-/

/-- Bytes of a string literal (ASCII). -/
def strBytes (s : String) : List Nat := s.data.map Char.toNat

/-- CRLF bytes. -/
def crlf : List Nat := [13, 10]

/-- `MAX_HEADERS_SIZE` from the source. -/
def MAX_HEADERS_SIZE : Nat := 8000

/-- `MAX_BODY_SIZE` from the source. -/
def MAX_BODY_SIZE : Nat := 10000000

/-- `MAX_NUM_HEADERS` from the source. -/
def MAX_NUM_HEADERS : Nat := 32

/-- A TCP stream: the list of chunks in which data arrives.  An exhausted
stream returns zero-byte reads (EOF). -/
abbrev ByteStream := List (List Nat)

/-- One `stream.read(&mut buffer[..bufsize])` call: take up to `bufsize` bytes
from the front chunk; a partially consumed chunk stays at the front.  Returns
the bytes read and the rest of the stream. -/
def streamRead (s : ByteStream) (bufsize : Nat) : List Nat × ByteStream :=
  match s with
  | [] => ([], [])
  | c :: rest =>
    let taken := c.take bufsize
    let rem := c.drop bufsize
    (taken, if rem.isEmpty then rest else rem :: rest)

/-- Total number of bytes remaining in a stream. -/
def streamLen (s : ByteStream) : Nat := (s.map List.length).sum

/-- The stream holding exactly the bytes `l` (no chunk if `l` is empty). -/
def streamOf (l : List Nat) : ByteStream := if l.isEmpty then [] else [l]

/-- `request::Error` (the `httparse::Error` payload of `MalformedRequest` and
the `std::io::Error` payload of `ConnectionError` are dropped; our model
streams never raise I/O errors). -/
inductive RqError where
  | IncompleteRequest (bytesRead : Nat)
  | MalformedRequest
  | InvalidContentLength
  | ContentLengthMismatch
  | RequestBodyTooLarge
deriving DecidableEq, Repr

/-- `response::Error` (payloads dropped as for `RqError`). -/
inductive RsError where
  | IncompleteResponse
  | MalformedResponse
  | InvalidContentLength
  | ContentLengthMismatch
  | ResponseBodyTooLarge
deriving DecidableEq, Repr

/-- `http::Request<Vec<u8>>`: method, uri, headers (ordered multimap, names
stored lower-case, per the spec's data model for the external `http` crate),
body.  The version is always `HTTP/1.1` and is not stored (`parse_request`
sets `http::Version::HTTP_11` unconditionally). -/
structure Request where
  method : List Nat
  uri : List Nat
  headers : List (List Nat × List Nat)
  body : List Nat
deriving DecidableEq, Repr

/-- `http::Response<Vec<u8>>`: status code, headers, body.  `http::StatusCode`
stores only the numeric code (the reason phrase is not part of the value);
the version is always `HTTP/1.1`. -/
structure Response where
  status : Nat
  headers : List (List Nat × List Nat)
  body : List Nat
deriving DecidableEq, Repr

/-- First value of a header (what `HeaderMap::get` returns). -/
def findHeader (hs : List (List Nat × List Nat)) (name : List Nat) : Option (List Nat) :=
  match hs with
  | [] => none
  | (k, v) :: rest => if k = name then some v else findHeader rest name

/-- `HeaderMap::insert`: replace the value at the first slot of `name`
(dropping any further values of the same name), or append a new entry. -/
def insertHeader (hs : List (List Nat × List Nat)) (name v : List Nat) :
    List (List Nat × List Nat) :=
  match hs with
  | [] => [(name, v)]
  | (k, w) :: rest =>
    if k = name then (name, v) :: rest.filter (fun p => p.1 ≠ name)
    else (k, w) :: insertHeader rest name v

/-- ASCII lower-casing of one byte. -/
def lowerByte (b : Nat) : Nat := if 65 ≤ b ∧ b ≤ 90 then b + 32 else b

/-- ASCII lower-casing of a byte string (what `http::HeaderName` does). -/
def lowerBytes (l : List Nat) : List Nat := l.map lowerByte

/-- ASCII digit? -/
def isDigit (b : Nat) : Bool := 48 ≤ b && b ≤ 57

/-- Space or horizontal tab. -/
def isWS (b : Nat) : Bool := b == 32 || b == 9

/-- Strip leading and trailing whitespace. -/
def trimWS (l : List Nat) : List Nat :=
  ((l.dropWhile isWS).reverse.dropWhile isWS).reverse

/-- Bytes allowed in a method / request-target (printable ASCII, no space). -/
def isFieldByte (b : Nat) : Bool := 33 ≤ b && b ≤ 126

/-- Bytes allowed in a header name (printable ASCII, no space, no colon). -/
def isNameByte (b : Nat) : Bool := 33 ≤ b && b ≤ 126 && b != 58

/-- Bytes allowed in a header value (space and printable ASCII). -/
def isValueByte (b : Nat) : Bool := 32 ≤ b && b ≤ 126

/-- Parse a decimal number (`str::parse::<usize>` on the digit-only form the
spec requires: "must parse as a non-negative decimal integer"). -/
def parseNatBytes (l : List Nat) : Option Nat :=
  if !l.isEmpty && l.all isDigit then
    some (l.foldl (fun acc b => acc * 10 + (b - 48)) 0)
  else none

/-- `get_content_length` (request.rs lines 31-46): first `content-length`
header, parsed as a number, `InvalidContentLength` if unparsable. -/
def getContentLength (req : Request) : Except RqError (Option Nat) :=
  match findHeader req.headers (strBytes ("content-length")) with
  | none => .ok none
  | some v =>
    match parseNatBytes v with
    | none => .error .InvalidContentLength
    | some n => .ok (some n)

/-- `response::get_content_length` (response.rs lines 29-44). -/
def getContentLengthResp (r : Response) : Except RsError (Option Nat) :=
  match findHeader r.headers (strBytes ("content-length")) with
  | none => .ok none
  | some v =>
    match parseNatBytes v with
    | none => .error .InvalidContentLength
    | some n => .ok (some n)

/-- `extend_header_value` (request.rs lines 53-67): append `", value"` to the
existing header, or insert the bare value. -/
def extendHeaderValue (req : Request) (name extendValue : List Nat) : Request :=
  let key := lowerBytes name
  let newValue :=
    match findHeader req.headers key with
    | some existing => existing ++ [44, 32] ++ extendValue
    | none => extendValue
  { req with headers := insertHeader req.headers key newValue }

/-- Split a buffer at the first CRLF: `some (line, rest)` or `none` if no CRLF
is present yet. -/
def splitCRLF : List Nat → Option (List Nat × List Nat)
  | [] => none
  | b :: rest =>
    if b = 13 ∧ rest.head? = some 10 then some ([], rest.tail)
    else (splitCRLF rest).map (fun p => (b :: p.1, p.2))

/-- Split a list at the first occurrence of byte `c`. -/
def splitByte (c : Nat) : List Nat → Option (List Nat × List Nat)
  | [] => none
  | b :: rest =>
    if b = c then some ([], rest)
    else (splitByte c rest).map (fun p => (b :: p.1, p.2))

/-- Modelled from the spec: one `name: value` header line as `httparse`
accepts it (the `httparse` crate is not in the repository).  The name must be
a non-empty token; it is lower-cased and the value is trimmed of surrounding
whitespace when stored. -/
def parseHeaderLine (line : List Nat) : Option (List Nat × List Nat) :=
  match splitByte 58 line with
  | none => none
  | some (n, v) =>
    if !n.isEmpty && n.all isNameByte then some (lowerBytes n, trimWS v)
    else none

/-- Modelled from the spec: the header-block loop of `httparse` over a buffer
with `MAX_NUM_HEADERS = 32` slots.  Returns `.ok none` when more data is
needed, `.ok (some (headers, rest))` past the blank line, `.error ()` on a bad
header line or when a 33rd header is found (`TooManyHeaders`).  `fuel` is
spent once per line; `buf.length + 1` always suffices. -/
def parseHeadersAux : Nat → List Nat → List (List Nat × List Nat) →
    Except Unit (Option (List (List Nat × List Nat) × List Nat))
  | 0, _, _ => .error ()
  | fuel + 1, buf, acc =>
    if buf.head? = some 13 ∧ buf.tail.head? = some 10 then
      .ok (some (acc.reverse, buf.tail.tail))
    else
      match splitCRLF buf with
      | none => .ok none
      | some (line, rest) =>
        match parseHeaderLine line with
        | none => .error ()
        | some h =>
          if MAX_NUM_HEADERS ≤ acc.length then .error ()
          else parseHeadersAux fuel rest (h :: acc)

/-- Modelled from the spec: the request line `METHOD SP request-target SP
HTTP/1.1 CRLF`. -/
def parseRequestLine (line : List Nat) : Option (List Nat × List Nat) :=
  match splitByte 32 line with
  | none => none
  | some (m, rest) =>
    match splitByte 32 rest with
    | none => none
    | some (u, ver) =>
      if !m.isEmpty && m.all isFieldByte && !u.isEmpty && u.all isFieldByte
          && ver == strBytes ("HTTP/1.1") then
        some (m, u)
      else none

/-- `parse_request` (request.rs lines 77-95): try to parse a complete
request-line-plus-headers prefix of `buffer`; `.ok none` means incomplete,
`.ok (some (req, len))` gives the parsed message (empty body) and the length
of the header block, errors map to `MalformedRequest`.  The wire grammar is
modelled from the spec (the parsing itself lives in the external `httparse`
crate). -/
def parseRequest (buf : List Nat) : Except RqError (Option (Request × Nat)) :=
  match splitCRLF buf with
  | none => .ok none
  | some (line, rest) =>
    match parseRequestLine line with
    | none => .error .MalformedRequest
    | some (m, u) =>
      match parseHeadersAux (rest.length + 1) rest [] with
      | .error _ => .error .MalformedRequest
      | .ok none => .ok none
      | .ok (some (hs, rest2)) =>
        .ok (some ({ method := m, uri := u, headers := hs, body := [] },
          buf.length - rest2.length))

/-- Three decimal digits of a status code in `100..=999`
(`StatusCode::as_str`). -/
def statusBytes (c : Nat) : List Nat :=
  [c / 100 + 48, c / 10 % 10 + 48, c % 10 + 48]

/-- Modelled from the spec / `http` crate: `StatusCode::canonical_reason` for
the codes this development touches (`unwrap_or("")` elsewhere). -/
def canonicalReason (c : Nat) : List Nat :=
  match c with
  | 100 => strBytes ("Continue")
  | 200 => strBytes ("OK")
  | 204 => strBytes ("No Content")
  | 304 => strBytes ("Not Modified")
  | 404 => strBytes ("Not Found")
  | 429 => strBytes ("Too Many Requests")
  | 500 => strBytes ("Internal Server Error")
  | 502 => strBytes ("Bad Gateway")
  | _ => []

/-- Modelled from the spec: the status line `HTTP/1.1 SP code SP reason CRLF`;
yields the status code.  Codes outside `100..=999` are rejected (such codes
make `http::Response::builder` fail). -/
def parseStatusLine (line : List Nat) : Option Nat :=
  if line.take 9 = strBytes ("HTTP/1.1 ") then
    match line.drop 9 with
    | d1 :: d2 :: d3 :: rest =>
      if isDigit d1 && isDigit d2 && isDigit d3 && 49 ≤ d1
          && (rest.isEmpty || rest.head? == some 32) then
        some ((d1 - 48) * 100 + (d2 - 48) * 10 + (d3 - 48))
      else none
    | _ => none
  else none

/-- `parse_response` (response.rs lines 55-74), analogous to `parseRequest`. -/
def parseResponse (buf : List Nat) : Except RsError (Option (Response × Nat)) :=
  match splitCRLF buf with
  | none => .ok none
  | some (line, rest) =>
    match parseStatusLine line with
    | none => .error .MalformedResponse
    | some code =>
      match parseHeadersAux (rest.length + 1) rest [] with
      | .error _ => .error .MalformedResponse
      | .ok none => .ok none
      | .ok (some (hs, rest2)) =>
        .ok (some ({ status := code, headers := hs, body := [] },
          buf.length - rest2.length))

/-- The loop of `request::read_headers` (request.rs lines 104-133): read into
`buffer[bytes_read..]` of the fixed 8000-byte buffer, fail with
`IncompleteRequest(bytes_read)` on a zero-byte read, re-parse after every
read; on completion the surplus `buffer[headers_len..bytes_read]` becomes the
start of the body.  `buf` is the filled prefix of the buffer. -/
def readHeadersLoopReq : Nat → ByteStream → List Nat →
    (Except RqError (Request × Nat)) × ByteStream
  | 0, s, buf => (.error (.IncompleteRequest buf.length), s)
  | fuel + 1, s, buf =>
    let p := streamRead s (MAX_HEADERS_SIZE - buf.length)
    if p.1.length = 0 then (.error (.IncompleteRequest buf.length), p.2)
    else
      let buf2 := buf ++ p.1
      match parseRequest buf2 with
      | .error e => (.error e, p.2)
      | .ok (some (req, len)) =>
        (.ok ({ req with body := buf2.drop len }, len), p.2)
      | .ok none => readHeadersLoopReq fuel p.2 buf2

/-- `request::read_headers` (also reporting the header-block length that
`parse_request` returned). -/
def readHeadersReq (s : ByteStream) : (Except RqError (Request × Nat)) × ByteStream :=
  readHeadersLoopReq (streamLen s + 1) s []

/-- The loop of `request::read_body` (request.rs lines 140-175): while the
body is shorter than `content_length`, read into a fresh buffer of
`min(512, content_length)` bytes; a zero-byte read or exceeding
`content_length` is `ContentLengthMismatch`. -/
def readBodyLoopReq : Nat → ByteStream → List Nat → Nat →
    (Except RqError (List Nat)) × ByteStream
  | 0, s, body, cl =>
    if cl ≤ body.length then (.ok body, s) else (.error .ContentLengthMismatch, s)
  | fuel + 1, s, body, cl =>
    if cl ≤ body.length then (.ok body, s)
    else
      let p := streamRead s (min 512 cl)
      if p.1.length = 0 then (.error .ContentLengthMismatch, p.2)
      else if cl < body.length + p.1.length then (.error .ContentLengthMismatch, p.2)
      else readBodyLoopReq fuel p.2 (body ++ p.1) cl

/-- `request::read_body` applied to a request whose body currently holds
`body`. -/
def readBodyReq (s : ByteStream) (body : List Nat) (cl : Nat) :
    (Except RqError (List Nat)) × ByteStream :=
  readBodyLoopReq (streamLen s + 1) s body cl

/-- `request::read_from_stream` (request.rs lines 181-193): read headers; if
`Content-Length` is present, reject values over `MAX_BODY_SIZE` with
`RequestBodyTooLarge` before any body read, otherwise read the body. -/
def readRequestFromStream (s : ByteStream) : (Except RqError Request) × ByteStream :=
  match readHeadersReq s with
  | (.error e, s') => (.error e, s')
  | (.ok (req, _), s') =>
    match getContentLength req with
    | .error e => (.error e, s')
    | .ok none => (.ok req, s')
    | .ok (some n) =>
      if MAX_BODY_SIZE < n then (.error .RequestBodyTooLarge, s')
      else
        match readBodyReq s' req.body n with
        | (.error e, s'') => (.error e, s'')
        | (.ok b, s'') => (.ok { req with body := b }, s'')

/-- The loop of `response::read_headers` (response.rs lines 83-111). -/
def readHeadersLoopResp : Nat → ByteStream → List Nat →
    (Except RsError (Response × Nat)) × ByteStream
  | 0, s, _ => (.error .IncompleteResponse, s)
  | fuel + 1, s, buf =>
    let p := streamRead s (MAX_HEADERS_SIZE - buf.length)
    if p.1.length = 0 then (.error .IncompleteResponse, p.2)
    else
      let buf2 := buf ++ p.1
      match parseResponse buf2 with
      | .error e => (.error e, p.2)
      | .ok (some (r, len)) =>
        (.ok ({ r with body := buf2.drop len }, len), p.2)
      | .ok none => readHeadersLoopResp fuel p.2 buf2

/-- `response::read_headers`. -/
def readHeadersResp (s : ByteStream) : (Except RsError (Response × Nat)) × ByteStream :=
  readHeadersLoopResp (streamLen s + 1) s []

/-- The `while` condition of `response::read_body` (response.rs line 123):
`content_length.is_none() || body.len() < content_length.unwrap()`. -/
def bodyCond (body : List Nat) (cl : Option Nat) : Bool :=
  match cl with
  | none => true
  | some n => body.length < n

/-- The loop of `response::read_body` (response.rs lines 117-155): read into a
fixed 512-byte buffer; a zero-byte read ends the body when no
`Content-Length` was given and is `ContentLengthMismatch` otherwise;
exceeding `Content-Length` is `ContentLengthMismatch`; exceeding
`MAX_BODY_SIZE` is `ResponseBodyTooLarge`. -/
def readBodyLoopResp : Nat → ByteStream → List Nat → Option Nat →
    (Except RsError (List Nat)) × ByteStream
  | 0, s, body, cl =>
    if bodyCond body cl then (.error .ContentLengthMismatch, s) else (.ok body, s)
  | fuel + 1, s, body, cl =>
    if bodyCond body cl then
      let p := streamRead s 512
      if p.1.length = 0 then
        match cl with
        | none => (.ok body, p.2)
        | some _ => (.error .ContentLengthMismatch, p.2)
      else if (match cl with
          | some n => decide (n < body.length + p.1.length)
          | none => false) then
        (.error .ContentLengthMismatch, p.2)
      else if MAX_BODY_SIZE < body.length + p.1.length then
        (.error .ResponseBodyTooLarge, p.2)
      else readBodyLoopResp fuel p.2 (body ++ p.1) cl
    else (.ok body, s)

/-- `response::read_body` on a response whose body currently holds `body`:
look up `Content-Length`, then loop. -/
def readBodyResp (s : ByteStream) (r : Response) :
    (Except RsError (List Nat)) × ByteStream :=
  match getContentLengthResp r with
  | .error e => (.error e, s)
  | .ok cl => readBodyLoopResp (streamLen s + 1) s r.body cl

/-- The body-skipping condition of `response::read_from_stream` (response.rs
lines 168-171): originating method HEAD, or status 1xx / 204 / 304. -/
def skipBody (methodBytes : List Nat) (status : Nat) : Bool :=
  methodBytes = strBytes ("HEAD") || status < 200 || status == 204 || status == 304

/-- `response::read_from_stream` (response.rs lines 161-176). -/
def readResponseFromStream (s : ByteStream) (methodBytes : List Nat) :
    (Except RsError Response) × ByteStream :=
  match readHeadersResp s with
  | (.error e, s') => (.error e, s')
  | (.ok (r, _), s') =>
    if skipBody methodBytes r.status then (.ok r, s')
    else
      match readBodyResp s' r with
      | (.error e, s'') => (.error e, s'')
      | (.ok b, s'') => (.ok { r with body := b }, s'')

/-- Serialized header block: each header as `name: value CRLF`
(`write_to_stream`'s header loop). -/
def serializeHeaders : List (List Nat × List Nat) → List Nat
  | [] => []
  | p :: rest => p.1 ++ 58 :: 32 :: (p.2 ++ 13 :: 10 :: serializeHeaders rest)

/-- Bytes of `format_request_line` plus headers plus the blank line
(`request::write_to_stream`, request.rs lines 198-214, before the body). -/
def serializeRequestHead (r : Request) : List Nat :=
  r.method ++ 32 :: (r.uri ++ 32 :: (strBytes ("HTTP/1.1") ++
    13 :: 10 :: (serializeHeaders r.headers ++ crlf)))

/-- All bytes `request::write_to_stream` writes. -/
def serializeRequest (r : Request) : List Nat :=
  serializeRequestHead r ++ r.body

/-- Bytes of `format_response_line` plus headers plus the blank line
(`response::write_to_stream`, response.rs lines 181-197, before the body). -/
def serializeResponseHead (r : Response) : List Nat :=
  strBytes ("HTTP/1.1 ") ++ statusBytes r.status ++
    32 :: (canonicalReason r.status ++
      13 :: 10 :: (serializeHeaders r.headers ++ crlf))

/-- All bytes `response::write_to_stream` writes. -/
def serializeResponse (r : Response) : List Nat :=
  serializeResponseHead r ++ r.body

/-- Decimal digits of a natural number (`usize`/`u16` `Display`), with fuel to
stay structural. -/
def natDigitsAux : Nat → Nat → List Nat
  | 0, _ => []
  | fuel + 1, n =>
    if n < 10 then [n + 48] else natDigitsAux fuel (n / 10) ++ [n % 10 + 48]

/-- Decimal digits of a natural number. -/
def natDigits (n : Nat) : List Nat := natDigitsAux (n + 1) n

/-- `make_http_error` (response.rs lines 210-224): plain-text body
`HTTP <code> <reason>` with `Content-Type` and `Content-Length` headers
(header names stored lower-cased by the `http` crate). -/
def makeHttpError (status : Nat) : Response :=
  let body := strBytes ("HTTP ") ++ natDigits status ++ 32 :: canonicalReason status
  { status := status,
    headers := [(strBytes ("content-type"), strBytes ("text/plain")),
      (strBytes ("content-length"), natDigits body.length)],
    body := body }

/-- A header `(name, value)` as the serializer can emit and the parser can
read back: non-empty lower-case token name, printable value with no
surrounding whitespace. -/
def headerWf (p : List Nat × List Nat) : Bool :=
  !p.1.isEmpty && p.1.all isNameByte && (lowerBytes p.1 == p.1)
    && p.2.all isValueByte && (trimWS p.2 == p.2)

/-- All headers well formed. -/
def headersWf (hs : List (List Nat × List Nat)) : Bool := hs.all headerWf

/-- Method and request-target well formed. -/
def requestLineWf (r : Request) : Bool :=
  !r.method.isEmpty && r.method.all isFieldByte && !r.uri.isEmpty && r.uri.all isFieldByte

/-- The request's `Content-Length` header (if any) agrees with its body: the
advertised length equals the body length and respects the `MAX_BODY_SIZE`
cap, or the header is absent and the body empty. -/
def contentLengthConsistent (r : Request) : Bool :=
  match getContentLength r with
  | .ok none => r.body.isEmpty
  | .ok (some n) => n == r.body.length && decide (n ≤ MAX_BODY_SIZE)
  | .error _ => false

/-- A valid HTTP/1.1 request message, as the codec itself can emit: well
formed request line and headers, at most `MAX_NUM_HEADERS` of them, header
block within the 8000-byte read buffer, and a `Content-Length` consistent
with the body. -/
def validRequest (r : Request) : Bool :=
  requestLineWf r && headersWf r.headers
    && decide (r.headers.length ≤ MAX_NUM_HEADERS)
    && decide ((serializeRequestHead r).length ≤ MAX_HEADERS_SIZE)
    && contentLengthConsistent r

/-- The response's `Content-Length` header (if any) agrees with its body;
with no header the body is delimited by EOF, so any length up to
`MAX_BODY_SIZE` is consistent. -/
def contentLengthConsistentResp (r : Response) : Bool :=
  match getContentLengthResp r with
  | .ok none => decide (r.body.length ≤ MAX_BODY_SIZE)
  | .ok (some n) => n == r.body.length && decide (n ≤ MAX_BODY_SIZE)
  | .error _ => false

/-- A valid HTTP/1.1 response message to a request with method
`methodBytes`: three-digit status, well-formed headers, at most
`MAX_NUM_HEADERS` of them, header block within the 8000-byte read buffer,
and a body consistent with `Content-Length` — empty when the response is one
that carries no body (HEAD, 1xx, 204, 304). -/
def validResponse (methodBytes : List Nat) (r : Response) : Bool :=
  decide (100 ≤ r.status) && decide (r.status ≤ 999)
    && headersWf r.headers
    && decide (r.headers.length ≤ MAX_NUM_HEADERS)
    && decide ((serializeResponseHead r).length ≤ MAX_HEADERS_SIZE)
    && (if skipBody methodBytes r.status then r.body.isEmpty
        else contentLengthConsistentResp r)

deriving instance DecidableEq for Except

set_option maxRecDepth 10000

/-! ## Stream lemmas -/

theorem streamRead_len (s : ByteStream) (b : Nat) :
    streamLen s = (streamRead s b).1.length + streamLen (streamRead s b).2 := by
  cases s with
  | nil => rfl
  | cons c rest =>
    have htake : (c.take b).length = min b c.length := List.length_take b c
    have hdrop : (c.drop b).length = c.length - b := List.length_drop b c
    cases hd : c.drop b with
    | nil =>
      have h0 : c.length - b = 0 := by rw [← hdrop, hd]; rfl
      simp [streamRead, hd, streamLen]
      omega
    | cons x xs =>
      have h0 : c.length - b = xs.length + 1 := by
        rw [← hdrop, hd]; rfl
      simp [streamRead, hd, streamLen]
      omega

theorem streamRead_take_le (s : ByteStream) (b : Nat) :
    (streamRead s b).1.length ≤ b := by
  cases s with
  | nil => simp [streamRead]
  | cons c rest =>
    simp only [streamRead]
    by_cases h : (c.drop b).isEmpty = true <;>
      simp [h, List.length_take]

/-- `read_headers` never reads more than the free space of its 8000-byte
buffer: the bytes consumed from the stream are at most
`MAX_HEADERS_SIZE - buf.length`. -/
theorem readHeadersLoopReq_consumed (fuel : Nat) : ∀ (s : ByteStream) (buf : List Nat),
    buf.length ≤ MAX_HEADERS_SIZE →
    streamLen s ≤ streamLen (readHeadersLoopReq fuel s buf).2 +
      (MAX_HEADERS_SIZE - buf.length) := by
  induction fuel with
  | zero => intro s buf _; simp [readHeadersLoopReq]
  | succ fuel ih =>
    intro s buf hbuf
    have hlen := streamRead_len s (MAX_HEADERS_SIZE - buf.length)
    have hle := streamRead_take_le s (MAX_HEADERS_SIZE - buf.length)
    simp only [readHeadersLoopReq]
    by_cases h0 : (streamRead s (MAX_HEADERS_SIZE - buf.length)).1.length = 0
    · simp only [h0, if_true]
      omega
    · simp only [h0, if_false]
      split
      · dsimp only
        omega
      · dsimp only
        omega
      · have ihx := ih (streamRead s (MAX_HEADERS_SIZE - buf.length)).2
          (buf ++ (streamRead s (MAX_HEADERS_SIZE - buf.length)).1)
          (by simp only [List.length_append]; omega)
        simp only [List.length_append] at ihx
        omega

/-- The same bound for the response-side loop. -/
theorem readHeadersLoopResp_consumed (fuel : Nat) : ∀ (s : ByteStream) (buf : List Nat),
    buf.length ≤ MAX_HEADERS_SIZE →
    streamLen s ≤ streamLen (readHeadersLoopResp fuel s buf).2 +
      (MAX_HEADERS_SIZE - buf.length) := by
  induction fuel with
  | zero => intro s buf _; simp [readHeadersLoopResp]
  | succ fuel ih =>
    intro s buf hbuf
    have hlen := streamRead_len s (MAX_HEADERS_SIZE - buf.length)
    have hle := streamRead_take_le s (MAX_HEADERS_SIZE - buf.length)
    simp only [readHeadersLoopResp]
    by_cases h0 : (streamRead s (MAX_HEADERS_SIZE - buf.length)).1.length = 0
    · simp only [h0, if_true]
      omega
    · simp only [h0, if_false]
      split
      · dsimp only
        omega
      · dsimp only
        omega
      · have ihx := ih (streamRead s (MAX_HEADERS_SIZE - buf.length)).2
          (buf ++ (streamRead s (MAX_HEADERS_SIZE - buf.length)).1)
          (by simp only [List.length_append]; omega)
        simp only [List.length_append] at ihx
        omega

/-! ## Flattened stream contents -/

/-- All bytes of a stream in order. -/
def streamFlat : ByteStream → List Nat
  | [] => []
  | c :: rest => c ++ streamFlat rest

theorem streamRead_flat (s : ByteStream) (b : Nat) :
    (streamRead s b).1 ++ streamFlat (streamRead s b).2 = streamFlat s := by
  cases s with
  | nil => rfl
  | cons c rest =>
    simp only [streamRead]
    cases hd : c.drop b with
    | nil =>
      have : c.take b = c := by
        have := List.take_append_drop b c
        rw [hd, List.append_nil] at this
        exact this
      simp [hd, streamFlat, this]
    | cons x xs =>
      have : c.take b ++ (x :: xs) = c := by
        rw [← hd]; exact List.take_append_drop b c
      simp only [hd, List.isEmpty_cons, if_false, streamFlat, Bool.false_eq_true]
      rw [← List.append_assoc, this]

theorem streamRead_chunks_ne (s : ByteStream) (b : Nat)
    (h : ∀ ch ∈ s, ch ≠ []) : ∀ ch ∈ (streamRead s b).2, ch ≠ [] := by
  cases s with
  | nil => intro ch hm; exact absurd hm (List.not_mem_nil ch)
  | cons c rest =>
    simp only [streamRead]
    cases hd : c.drop b with
    | nil =>
      simp only [List.isEmpty_nil, if_true]
      intro ch hm
      exact h ch (List.mem_cons_of_mem c hm)
    | cons x xs =>
      simp only [List.isEmpty_cons, Bool.false_eq_true, if_false]
      intro ch hm
      rcases List.mem_cons.mp hm with h1 | h2
      · rw [h1]; simp
      · exact h ch (List.mem_cons_of_mem c h2)

/-! ## Claim C1 -/

/-- Claim C1: if the parsed request headers advertise a `Content-Length`
value greater than 10000000, `request::read_from_stream` returns
`RequestBodyTooLarge` without issuing any body read (the stream is left
exactly where `read_headers` left it), and at most 8000 bytes were consumed
from the stream in total. -/
theorem c1_request_bodyTooLarge_early (s s' : ByteStream) (req : Request) (len n : Nat)
    (h1 : readHeadersReq s = (.ok (req, len), s'))
    (h2 : getContentLength req = .ok (some n))
    (h3 : 10000000 < n) :
    readRequestFromStream s = (.error .RequestBodyTooLarge, s') ∧
      streamLen s ≤ streamLen s' + 8000 := by
  constructor
  · simp only [readRequestFromStream, h1, h2, MAX_BODY_SIZE]
    rw [if_pos h3]
  · have hc := readHeadersLoopReq_consumed (streamLen s + 1) s []
      (by simp [MAX_HEADERS_SIZE])
    have he : readHeadersLoopReq (streamLen s + 1) s [] = (.ok (req, len), s') := h1
    rw [he] at hc
    simpa [MAX_HEADERS_SIZE] using hc

/-- Witness for C1 at a concrete 44-byte request stream. -/
theorem c1_request_bodyTooLarge_early_witness :
    readHeadersReq [strBytes ("GET / HTTP/1.1\r\ncontent-length: 10000001\r\n\r\n")]
      = (.ok ({ method := strBytes ("GET"), uri := strBytes ("/"),
                headers := [(strBytes ("content-length"), strBytes ("10000001"))],
                body := [] }, 44), []) ∧
    getContentLength { method := strBytes ("GET"), uri := strBytes ("/"),
                       headers := [(strBytes ("content-length"), strBytes ("10000001"))],
                       body := [] } = .ok (some 10000001) ∧
    10000000 < 10000001 ∧
    (readRequestFromStream [strBytes ("GET / HTTP/1.1\r\ncontent-length: 10000001\r\n\r\n")]
        = (.error .RequestBodyTooLarge, []) ∧
      streamLen [strBytes ("GET / HTTP/1.1\r\ncontent-length: 10000001\r\n\r\n")]
        ≤ streamLen [] + 8000) :=
  ⟨by decide, by decide, by decide,
    c1_request_bodyTooLarge_early
      [strBytes ("GET / HTTP/1.1\r\ncontent-length: 10000001\r\n\r\n")] []
      { method := strBytes ("GET"), uri := strBytes ("/"),
        headers := [(strBytes ("content-length"), strBytes ("10000001"))], body := [] }
      44 10000001 (by decide) (by decide) (by decide)⟩

/-! ## Claim C2: the 8000-byte buffer fills without a complete header block -/

/-- Once the 8000-byte buffer is full, the next `stream.read` goes into an
empty slice, returns `0` bytes, and the request loop yields
`IncompleteRequest 8000` (for any fuel). -/
theorem readHeadersLoopReq_full (fuel : Nat) (s : ByteStream) (buf : List Nat)
    (h : buf.length = MAX_HEADERS_SIZE) :
    (readHeadersLoopReq fuel s buf).1 = .error (.IncompleteRequest MAX_HEADERS_SIZE) := by
  cases fuel with
  | zero => simp [readHeadersLoopReq, h]
  | succ fuel =>
    have hnil : (streamRead s 0).1 = [] := by
      cases s with
      | nil => rfl
      | cons c rest => simp [streamRead]
    simp [readHeadersLoopReq, h, Nat.sub_self, hnil]

/-- Response-side analogue of `readHeadersLoopReq_full`. -/
theorem readHeadersLoopResp_full (fuel : Nat) (s : ByteStream) (buf : List Nat)
    (h : buf.length = MAX_HEADERS_SIZE) :
    (readHeadersLoopResp fuel s buf).1 = .error .IncompleteResponse := by
  cases fuel with
  | zero => simp [readHeadersLoopResp, h]
  | succ fuel =>
    have hnil : (streamRead s 0).1 = [] := by
      cases s with
      | nil => rfl
      | cons c rest => simp [streamRead]
    simp [readHeadersLoopResp, h, Nat.sub_self, hnil]

/-- If every prefix of the incoming bytes still parses as incomplete and the
stream (with non-empty packets) holds at least `8000 - buf.length` more
bytes, the request-header loop ends in `IncompleteRequest 8000`. -/
theorem readHeadersLoopReq_partial (fuel : Nat) : ∀ (s : ByteStream) (buf : List Nat),
    MAX_HEADERS_SIZE ≤ buf.length + streamLen s →
    buf.length ≤ MAX_HEADERS_SIZE →
    MAX_HEADERS_SIZE - buf.length + 1 ≤ fuel →
    (∀ ch ∈ s, ch ≠ []) →
    (∀ k, parseRequest ((buf ++ streamFlat s).take k) = .ok none) →
    (readHeadersLoopReq fuel s buf).1 = .error (.IncompleteRequest MAX_HEADERS_SIZE) := by
  induction fuel with
  | zero => intro s buf h1 h2 h3 _ _; omega
  | succ fuel ih =>
    intro s buf h1 h2 h3 hch hpar
    by_cases hfull : buf.length = MAX_HEADERS_SIZE
    · exact readHeadersLoopReq_full (fuel + 1) s buf hfull
    · have hlt : buf.length < MAX_HEADERS_SIZE := Nat.lt_of_le_of_ne h2 hfull
      have hpos : 0 < streamLen s := by omega
      cases hs : s with
      | nil => rw [hs] at hpos; simp [streamLen] at hpos
      | cons c rest =>
        subst hs
        have hcne : c ≠ [] := hch c (List.mem_cons_self c rest)
        have hclen : 0 < c.length := List.length_pos.mpr hcne
        have htk : (streamRead (c :: rest) (MAX_HEADERS_SIZE - buf.length)).1.length
            = min (MAX_HEADERS_SIZE - buf.length) c.length := by
          simp [streamRead, List.length_take]
        have htkpos : 0 < (streamRead (c :: rest) (MAX_HEADERS_SIZE - buf.length)).1.length := by
          rw [htk]; omega
        have hrl := streamRead_len (c :: rest) (MAX_HEADERS_SIZE - buf.length)
        have hrle := streamRead_take_le (c :: rest) (MAX_HEADERS_SIZE - buf.length)
        have hflat := streamRead_flat (c :: rest) (MAX_HEADERS_SIZE - buf.length)
        have hcat : buf ++ streamFlat (c :: rest)
            = (buf ++ (streamRead (c :: rest) (MAX_HEADERS_SIZE - buf.length)).1) ++
              streamFlat (streamRead (c :: rest) (MAX_HEADERS_SIZE - buf.length)).2 := by
          rw [← hflat, List.append_assoc]
        have hparse : parseRequest
            (buf ++ (streamRead (c :: rest) (MAX_HEADERS_SIZE - buf.length)).1) = .ok none := by
          have hk := hpar ((buf ++ (streamRead (c :: rest)
            (MAX_HEADERS_SIZE - buf.length)).1).length)
          rw [hcat, List.take_left] at hk
          exact hk
        simp only [readHeadersLoopReq]
        rw [if_neg (by omega)]
        rw [hparse]
        exact ih (streamRead (c :: rest) (MAX_HEADERS_SIZE - buf.length)).2
          (buf ++ (streamRead (c :: rest) (MAX_HEADERS_SIZE - buf.length)).1)
          (by simp only [List.length_append]; omega)
          (by simp only [List.length_append]; omega)
          (by simp only [List.length_append]; omega)
          (streamRead_chunks_ne (c :: rest) (MAX_HEADERS_SIZE - buf.length) hch)
          (by intro k; rw [← hcat]; exact hpar k)

/-- Response-side analogue of `readHeadersLoopReq_partial`. -/
theorem readHeadersLoopResp_partial (fuel : Nat) : ∀ (s : ByteStream) (buf : List Nat),
    MAX_HEADERS_SIZE ≤ buf.length + streamLen s →
    buf.length ≤ MAX_HEADERS_SIZE →
    MAX_HEADERS_SIZE - buf.length + 1 ≤ fuel →
    (∀ ch ∈ s, ch ≠ []) →
    (∀ k, parseResponse ((buf ++ streamFlat s).take k) = .ok none) →
    (readHeadersLoopResp fuel s buf).1 = .error .IncompleteResponse := by
  induction fuel with
  | zero => intro s buf h1 h2 h3 _ _; omega
  | succ fuel ih =>
    intro s buf h1 h2 h3 hch hpar
    by_cases hfull : buf.length = MAX_HEADERS_SIZE
    · exact readHeadersLoopResp_full (fuel + 1) s buf hfull
    · have hlt : buf.length < MAX_HEADERS_SIZE := Nat.lt_of_le_of_ne h2 hfull
      have hpos : 0 < streamLen s := by omega
      cases hs : s with
      | nil => rw [hs] at hpos; simp [streamLen] at hpos
      | cons c rest =>
        subst hs
        have hcne : c ≠ [] := hch c (List.mem_cons_self c rest)
        have hclen : 0 < c.length := List.length_pos.mpr hcne
        have htk : (streamRead (c :: rest) (MAX_HEADERS_SIZE - buf.length)).1.length
            = min (MAX_HEADERS_SIZE - buf.length) c.length := by
          simp [streamRead, List.length_take]
        have htkpos : 0 < (streamRead (c :: rest) (MAX_HEADERS_SIZE - buf.length)).1.length := by
          rw [htk]; omega
        have hrl := streamRead_len (c :: rest) (MAX_HEADERS_SIZE - buf.length)
        have hrle := streamRead_take_le (c :: rest) (MAX_HEADERS_SIZE - buf.length)
        have hflat := streamRead_flat (c :: rest) (MAX_HEADERS_SIZE - buf.length)
        have hcat : buf ++ streamFlat (c :: rest)
            = (buf ++ (streamRead (c :: rest) (MAX_HEADERS_SIZE - buf.length)).1) ++
              streamFlat (streamRead (c :: rest) (MAX_HEADERS_SIZE - buf.length)).2 := by
          rw [← hflat, List.append_assoc]
        have hparse : parseResponse
            (buf ++ (streamRead (c :: rest) (MAX_HEADERS_SIZE - buf.length)).1) = .ok none := by
          have hk := hpar ((buf ++ (streamRead (c :: rest)
            (MAX_HEADERS_SIZE - buf.length)).1).length)
          rw [hcat, List.take_left] at hk
          exact hk
        simp only [readHeadersLoopResp]
        rw [if_neg (by omega)]
        rw [hparse]
        exact ih (streamRead (c :: rest) (MAX_HEADERS_SIZE - buf.length)).2
          (buf ++ (streamRead (c :: rest) (MAX_HEADERS_SIZE - buf.length)).1)
          (by simp only [List.length_append]; omega)
          (by simp only [List.length_append]; omega)
          (by simp only [List.length_append]; omega)
          (streamRead_chunks_ne (c :: rest) (MAX_HEADERS_SIZE - buf.length) hch)
          (by intro k; rw [← hcat]; exact hpar k)

/-- Claim C2 (corrected): when the fixed 8000-byte header buffer fills while
every accumulated prefix still parses as incomplete, `read_headers` does not
yield a malformed-message error: the next read goes into an empty buffer
slice, returns 0 bytes, and the code treats that as the peer hanging up,
yielding `IncompleteRequest 8000` on the request side and
`IncompleteResponse` on the response side. -/
theorem c2_fullBuffer_incomplete (s : ByteStream)
    (hlen : MAX_HEADERS_SIZE ≤ streamLen s)
    (hch : ∀ ch ∈ s, ch ≠ [])
    (hreq : ∀ k, parseRequest ((streamFlat s).take k) = .ok none)
    (hresp : ∀ k, parseResponse ((streamFlat s).take k) = .ok none) :
    ((readHeadersReq s).1 = .error (.IncompleteRequest 8000) ∧
      (readHeadersReq s).1 ≠ .error .MalformedRequest) ∧
    ((readHeadersResp s).1 = .error .IncompleteResponse ∧
      (readHeadersResp s).1 ≠ .error .MalformedResponse) := by
  have h8 : MAX_HEADERS_SIZE = 8000 := rfl
  have hq := readHeadersLoopReq_partial (streamLen s + 1) s []
    (by simpa using hlen) (by simp) (by rw [h8] at hlen ⊢; simp; omega) hch
    (by intro k; simpa using hreq k)
  have hp := readHeadersLoopResp_partial (streamLen s + 1) s []
    (by simpa using hlen) (by simp) (by rw [h8] at hlen ⊢; simp; omega) hch
    (by intro k; simpa using hresp k)
  refine ⟨⟨hq, ?_⟩, ⟨hp, ?_⟩⟩
  · rw [show (readHeadersReq s).1 = (readHeadersLoopReq (streamLen s + 1) s []).1 from rfl, hq]
    simp
  · rw [show (readHeadersResp s).1 = (readHeadersLoopResp (streamLen s + 1) s []).1 from rfl, hp]
    simp

theorem streamLen_singleton (c : List Nat) : streamLen [c] = c.length := by
  simp [streamLen]

theorem splitCRLF_replicate65 (n : Nat) : splitCRLF (List.replicate n 65) = none := by
  induction n with
  | zero => rfl
  | succ n ih => simp [List.replicate_succ, splitCRLF, ih]

theorem parseRequest_replicate65 (n : Nat) : parseRequest (List.replicate n 65) = .ok none := by
  simp [parseRequest, splitCRLF_replicate65]

theorem parseResponse_replicate65 (n : Nat) : parseResponse (List.replicate n 65) = .ok none := by
  simp [parseResponse, splitCRLF_replicate65]

theorem replicate65_ne_nil (n : Nat) (h : 0 < n) : List.replicate n 65 ≠ [] := by
  intro heq
  have hl := congrArg List.length heq
  simp at hl
  omega

/-- Counterexample to C2 as stated: 8000 letter-`A` bytes fill the whole
header buffer without ever containing a complete header block, yet the
request-side `read_headers` returns `IncompleteRequest 8000`, not
`MalformedRequest` (`MalformedMessage`). -/
theorem c2_counterexample :
    (readHeadersReq [List.replicate 8000 65]).1 = .error (.IncompleteRequest 8000) ∧
      (readHeadersReq [List.replicate 8000 65]).1 ≠ .error .MalformedRequest := by
  have h8 : MAX_HEADERS_SIZE = 8000 := rfl
  have hq := readHeadersLoopReq_partial (streamLen [List.replicate 8000 65] + 1)
    [List.replicate 8000 65] []
    (by rw [streamLen_singleton, List.length_replicate]; decide)
    (by decide)
    (by rw [streamLen_singleton, List.length_replicate]; decide)
    (by intro ch hm
        rw [List.mem_singleton] at hm
        subst hm
        exact replicate65_ne_nil 8000 (by omega))
    (by intro k
        simp only [List.nil_append, streamFlat, List.append_nil, List.take_replicate]
        exact parseRequest_replicate65 _)
  refine ⟨hq, ?_⟩
  rw [show (readHeadersReq [List.replicate 8000 65]).1
    = (readHeadersLoopReq (streamLen [List.replicate 8000 65] + 1) [List.replicate 8000 65] []).1
    from rfl, hq]
  simp

/-- Witness for the corrected C2 at the concrete 8000-byte `A` stream. -/
theorem c2_fullBuffer_incomplete_witness :
    (MAX_HEADERS_SIZE ≤ streamLen [List.replicate 8000 65]) ∧
    (∀ ch ∈ [List.replicate 8000 65], ch ≠ []) ∧
    (((readHeadersReq [List.replicate 8000 65]).1 = .error (.IncompleteRequest 8000) ∧
        (readHeadersReq [List.replicate 8000 65]).1 ≠ .error .MalformedRequest) ∧
      ((readHeadersResp [List.replicate 8000 65]).1 = .error .IncompleteResponse ∧
        (readHeadersResp [List.replicate 8000 65]).1 ≠ .error .MalformedResponse)) :=
  ⟨by rw [streamLen_singleton, List.length_replicate]; decide,
   by intro ch hm
      rw [List.mem_singleton] at hm
      subst hm
      exact replicate65_ne_nil 8000 (by omega),
   c2_fullBuffer_incomplete [List.replicate 8000 65]
     (by rw [streamLen_singleton, List.length_replicate]; decide)
     (by intro ch hm
         rw [List.mem_singleton] at hm
         subst hm
         exact replicate65_ne_nil 8000 (by omega))
     (by intro k
         simp only [streamFlat, List.append_nil, List.take_replicate]
         exact parseRequest_replicate65 _)
     (by intro k
         simp only [streamFlat, List.append_nil, List.take_replicate]
         exact parseResponse_replicate65 _)⟩

/-! ## Claim C3: Content-Length mismatch handling -/

/-- Counterexample to C3 as stated: when surplus bytes arrive together with
the headers, the whole body loop is skipped and a body of 4 bytes is
accepted against `Content-Length: 2`, instead of `ContentLengthMismatch`. -/
theorem c3_counterexample :
    (readRequestFromStream [strBytes ("POST / HTTP/1.1\r\ncontent-length: 2\r\n\r\nABCD")]).1
        = .ok { method := strBytes ("POST"), uri := strBytes ("/"),
                headers := [(strBytes ("content-length"), strBytes ("2"))],
                body := strBytes ("ABCD") } ∧
      (readRequestFromStream [strBytes ("POST / HTTP/1.1\r\ncontent-length: 2\r\n\r\nABCD")]).1
        ≠ .error .ContentLengthMismatch ∧
      getContentLength { method := strBytes ("POST"), uri := strBytes ("/"),
                         headers := [(strBytes ("content-length"), strBytes ("2"))],
                         body := strBytes ("ABCD") } = .ok (some 2) ∧
      2 < (strBytes ("ABCD")).length := by
  refine ⟨by decide, by decide, by decide, by decide⟩

/-- Claim C3 (corrected): once the body loop runs (accumulated body shorter
than the advertised n), a zero-byte read yields `ContentLengthMismatch` and a
read that brings the total over n yields `ContentLengthMismatch`, on both the
request and the response side; but when the surplus bytes that arrived with
the headers already reach or exceed n, the loop exits at once and the
(possibly oversized) body is accepted silently. -/
theorem c3_mismatch_behaviour :
    (∀ (s : ByteStream) (body : List Nat) (n : Nat),
        body.length < n → (streamRead s (min 512 n)).1 = [] →
        readBodyReq s body n = (.error .ContentLengthMismatch, (streamRead s (min 512 n)).2)) ∧
    (∀ (s : ByteStream) (body : List Nat) (n : Nat),
        body.length < n → (streamRead s (min 512 n)).1 ≠ [] →
        n < body.length + (streamRead s (min 512 n)).1.length →
        readBodyReq s body n = (.error .ContentLengthMismatch, (streamRead s (min 512 n)).2)) ∧
    (∀ (s : ByteStream) (body : List Nat) (n : Nat),
        n ≤ body.length → readBodyReq s body n = (.ok body, s)) ∧
    (∀ (s : ByteStream) (r : Response) (n : Nat),
        getContentLengthResp r = .ok (some n) → r.body.length < n →
        (streamRead s 512).1 = [] →
        readBodyResp s r = (.error .ContentLengthMismatch, (streamRead s 512).2)) ∧
    (∀ (s : ByteStream) (r : Response) (n : Nat),
        getContentLengthResp r = .ok (some n) → r.body.length < n →
        (streamRead s 512).1 ≠ [] →
        n < r.body.length + (streamRead s 512).1.length →
        readBodyResp s r = (.error .ContentLengthMismatch, (streamRead s 512).2)) ∧
    (∀ (s : ByteStream) (r : Response) (n : Nat),
        getContentLengthResp r = .ok (some n) → n ≤ r.body.length →
        readBodyResp s r = (.ok r.body, s)) := by
  refine ⟨?_, ?_, ?_, ?_, ?_, ?_⟩
  · intro s body n h1 h2
    simp only [readBodyReq, readBodyLoopReq]
    rw [if_neg (by omega), if_pos (by simp [h2])]
  · intro s body n h1 h2 h3
    simp only [readBodyReq, readBodyLoopReq]
    rw [if_neg (by omega),
      if_neg (by simpa [List.length_eq_zero] using h2), if_pos h3]
  · intro s body n h1
    simp only [readBodyReq, readBodyLoopReq]
    rw [if_pos h1]
  · intro s r n h0 h1 h2
    simp only [readBodyResp, h0, readBodyLoopResp]
    rw [if_pos (by simp [bodyCond, h1]), if_pos (by simp [h2])]
  · intro s r n h0 h1 h2 h3
    simp only [readBodyResp, h0, readBodyLoopResp]
    rw [if_pos (by simp [bodyCond, h1]),
      if_neg (by simpa [List.length_eq_zero] using h2), if_pos (by simp [h3])]
  · intro s r n h0 h1
    simp only [readBodyResp, h0, readBodyLoopResp]
    rw [if_neg (by simp [bodyCond]; omega)]

/-- Witness for the corrected C3: all six behaviours at concrete inputs. -/
theorem c3_mismatch_behaviour_witness :
    (readBodyReq [] [] 1 = (.error .ContentLengthMismatch, [])) ∧
    (readBodyReq [[66, 66]] [65] 2 = (.error .ContentLengthMismatch, [])) ∧
    (readBodyReq [] [65, 65, 65] 2 = (.ok [65, 65, 65], [])) ∧
    (readBodyResp [] { status := 200,
                       headers := [(strBytes ("content-length"), strBytes ("1"))],
                       body := [] }
      = (.error .ContentLengthMismatch, [])) ∧
    (readBodyResp [[66, 66]] { status := 200,
                               headers := [(strBytes ("content-length"), strBytes ("2"))],
                               body := [65] }
      = (.error .ContentLengthMismatch, [])) ∧
    (readBodyResp [] { status := 200,
                       headers := [(strBytes ("content-length"), strBytes ("2"))],
                       body := [65, 65, 65] }
      = (.ok [65, 65, 65], [])) :=
  ⟨c3_mismatch_behaviour.1 [] [] 1 (by decide) (by decide),
   c3_mismatch_behaviour.2.1 [[66, 66]] [65] 2 (by decide) (by decide) (by decide),
   c3_mismatch_behaviour.2.2.1 [] [65, 65, 65] 2 (by decide),
   c3_mismatch_behaviour.2.2.2.1 [] _ 1 (by decide) (by decide) (by decide),
   c3_mismatch_behaviour.2.2.2.2.1 [[66, 66]] _ 2 (by decide) (by decide) (by decide) (by decide),
   c3_mismatch_behaviour.2.2.2.2.2 [] _ 2 (by decide) (by decide)⟩

/-! ## Claim C4: the size of each body read -/

/-- Counterexample to C4 as stated: the request loop sizes its buffer as
`min(512, content_length)`, not `min(512, remaining)`: with
`content_length = 100` and 60 body bytes already accumulated, one iteration
consumes 100 bytes from the stream although only 40 remain outstanding; the
response loop always uses a full 512-byte buffer: with `Content-Length 10` it
consumes 20 bytes at one read. -/
theorem c4_counterexample :
    (streamLen [List.replicate 100 66] -
        streamLen ((readBodyLoopReq 1 [List.replicate 100 66] (List.replicate 60 65) 100).2) = 100 ∧
      min 512 (100 - (List.replicate 60 65).length) = 40) ∧
    (streamLen [List.replicate 20 66] -
        streamLen ((readBodyLoopResp 1 [List.replicate 20 66] [] (some 10)).2) = 20 ∧
      min 512 (10 - ([] : List Nat).length) = 10) := by
  refine ⟨⟨by decide, by decide⟩, ⟨by decide, by decide⟩⟩

/-- Claim C4 (corrected): one iteration of the request body loop reads into a
buffer of `min(512, content_length)` bytes and hence consumes at most
`min(512, content_length)` (not `min(512, remaining)`); one iteration of the
response body loop reads into a fixed 512-byte buffer and hence consumes at
most 512. -/
theorem c4_read_sizes :
    (∀ (s : ByteStream) (body : List Nat) (cl : Nat),
        streamLen s ≤ streamLen ((readBodyLoopReq 1 s body cl).2) + min 512 cl) ∧
    (∀ (s : ByteStream) (body : List Nat) (cl : Option Nat),
        streamLen s ≤ streamLen ((readBodyLoopResp 1 s body cl).2) + 512) := by
  constructor
  · intro s body cl
    have h1 : readBodyLoopReq 1 s body cl = readBodyLoopReq (0 + 1) s body cl := rfl
    rw [h1]
    have hlen := streamRead_len s (min 512 cl)
    have hle := streamRead_take_le s (min 512 cl)
    simp only [readBodyLoopReq]
    repeat' split
    all_goals try dsimp only
    all_goals omega
  · intro s body cl
    have h1 : readBodyLoopResp 1 s body cl = readBodyLoopResp (0 + 1) s body cl := rfl
    rw [h1]
    have hlen := streamRead_len s 512
    have hle := streamRead_take_le s 512
    simp only [readBodyLoopResp]
    repeat' split
    all_goals try dsimp only
    all_goals omega

/-! ## Claim C5: extending a header value twice -/

theorem findHeader_insertHeader (hs : List (List Nat × List Nat)) (name v : List Nat) :
    findHeader (insertHeader hs name v) name = some v := by
  induction hs with
  | nil => simp [insertHeader, findHeader]
  | cons p rest ih =>
    rcases p with ⟨k, w⟩
    by_cases h : k = name
    · simp [insertHeader, h, findHeader]
    · simp [insertHeader, h, findHeader, ih]

/-- Counterexample to C5 as stated: starting from a request without the
header, two extensions produce the value `a, b`, not
`(empty) ++ ", a, b"`. -/
theorem c5_counterexample :
    findHeader (extendHeaderValue (extendHeaderValue
          { method := strBytes ("GET"), uri := strBytes ("/"), headers := [], body := [] }
          (strBytes ("x-forwarded-for")) (strBytes ("a")))
        (strBytes ("x-forwarded-for")) (strBytes ("b"))).headers
      (lowerBytes (strBytes ("x-forwarded-for")))
        = some (strBytes ("a, b")) ∧
      strBytes ("a, b") ≠ [] ++ strBytes (", a, b") := by
  refine ⟨by decide, by decide⟩

/-- Claim C5 (corrected): after `extend_header_value(H, name, a)` followed by
`extend_header_value(H, name, b)`, the header's value is
`prev ++ ", " ++ a ++ ", " ++ b` when the header was present with first value
`prev`, and `a ++ ", " ++ b` (no leading separator) when it was absent. -/
theorem c5_extend_twice (req : Request) (name a b : List Nat) :
    findHeader (extendHeaderValue (extendHeaderValue req name a) name b).headers
        (lowerBytes name)
      = some (match findHeader req.headers (lowerBytes name) with
          | some prev => prev ++ [44, 32] ++ a ++ [44, 32] ++ b
          | none => a ++ [44, 32] ++ b) := by
  cases hf : findHeader req.headers (lowerBytes name) with
  | none =>
    simp only [extendHeaderValue, hf, findHeader_insertHeader]
  | some prev =>
    simp only [extendHeaderValue, hf, findHeader_insertHeader]

/-! ## Claim C7: responses that must not have a body -/

/-- Counterexample to C7 as stated: for a 204 response whose stream carries
surplus bytes after the header block, `read_from_stream` does skip the body
phase but the returned response's body holds those surplus bytes, so "the
returned response has no body" is false. -/
theorem c7_counterexample :
    (readResponseFromStream [strBytes ("HTTP/1.1 204 No Content\r\n\r\nEXTRA")]
        (strBytes ("GET"))).1
      = .ok { status := 204, headers := [], body := strBytes ("EXTRA") } ∧
    strBytes ("EXTRA") ≠ [] := by
  refine ⟨by decide, by decide⟩

/-- Claim C7 (corrected): when the originating method is HEAD or the status
is 1xx, 204 or 304, `response::read_from_stream` skips the body phase and
returns the header-phase response unchanged (so its body consists of exactly
the surplus bytes read together with the headers, which may be non-empty);
for every other response the body phase `read_body` is performed. -/
theorem c7_skip_behaviour (s s' : ByteStream) (r : Response) (len : Nat) (m : List Nat)
    (h : readHeadersResp s = (.ok (r, len), s')) :
    (skipBody m r.status = true → readResponseFromStream s m = (.ok r, s')) ∧
    (skipBody m r.status = false →
      readResponseFromStream s m =
        (match readBodyResp s' r with
          | (.error e, s2) => (.error e, s2)
          | (.ok b, s2) => (.ok { r with body := b }, s2))) := by
  constructor
  · intro hs
    simp only [readResponseFromStream, h, hs, if_true]
  · intro hs
    simp only [readResponseFromStream, h, hs, Bool.false_eq_true, if_false]

/-- Witness for the corrected C7 at a 204 response with surplus bytes. -/
theorem c7_skip_behaviour_witness :
    readHeadersResp [strBytes ("HTTP/1.1 204 No Content\r\n\r\nEXTRA")]
        = (.ok ({ status := 204, headers := [], body := strBytes ("EXTRA") }, 27), []) ∧
    skipBody (strBytes ("GET")) 204 = true ∧
    ((skipBody (strBytes ("GET")) 204 = true →
        readResponseFromStream [strBytes ("HTTP/1.1 204 No Content\r\n\r\nEXTRA")]
          (strBytes ("GET"))
        = (.ok { status := 204, headers := [], body := strBytes ("EXTRA") }, [])) ∧
      (skipBody (strBytes ("GET")) 204 = false →
        readResponseFromStream [strBytes ("HTTP/1.1 204 No Content\r\n\r\nEXTRA")]
          (strBytes ("GET"))
        = (match readBodyResp [] { status := 204, headers := [], body := strBytes ("EXTRA") } with
            | (.error e, s2) => (.error e, s2)
            | (.ok b, s2) =>
              (.ok { status := 204, headers := [], body := b }, s2)))) :=
  ⟨by decide, by decide,
    c7_skip_behaviour [strBytes ("HTTP/1.1 204 No Content\r\n\r\nEXTRA")] []
      { status := 204, headers := [], body := strBytes ("EXTRA") } 27
      (strBytes ("GET")) (by decide)⟩

/-! ## Claim C9: make_http_error -/

/-- Claim C9: `make_http_error(429)` has status 429, body exactly
`HTTP 429 Too Many Requests`, `Content-Type: text/plain` and a
`Content-Length` equal to the body's byte length (26); `make_http_error(502)`
is identically shaped with status 502 and reason phrase `Bad Gateway`
(body `HTTP 502 Bad Gateway`, length 20). -/
theorem c9_make_http_error :
    ((makeHttpError 429).status = 429 ∧
      (makeHttpError 429).body = strBytes ("HTTP 429 Too Many Requests") ∧
      findHeader (makeHttpError 429).headers (strBytes ("content-type"))
        = some (strBytes ("text/plain")) ∧
      findHeader (makeHttpError 429).headers (strBytes ("content-length"))
        = some (natDigits (makeHttpError 429).body.length) ∧
      (makeHttpError 429).body.length = 26 ∧ natDigits 26 = strBytes ("26")) ∧
    ((makeHttpError 502).status = 502 ∧
      (makeHttpError 502).body = strBytes ("HTTP 502 Bad Gateway") ∧
      canonicalReason 502 = strBytes ("Bad Gateway") ∧
      findHeader (makeHttpError 502).headers (strBytes ("content-type"))
        = some (strBytes ("text/plain")) ∧
      findHeader (makeHttpError 502).headers (strBytes ("content-length"))
        = some (natDigits (makeHttpError 502).body.length) ∧
      (makeHttpError 502).body.length = 20 ∧ natDigits 20 = strBytes ("20")) := by
  refine ⟨⟨by decide, by decide, by decide, by decide, by decide, by decide⟩,
    ⟨by decide, by decide, by decide, by decide, by decide, by decide, by decide⟩⟩

/-! ## Claim C10: no early rejection of oversized response bodies -/

theorem readBodyLoopResp_stream_mono (fuel : Nat) : ∀ (s : ByteStream) (body : List Nat)
    (cl : Option Nat),
    streamLen ((readBodyLoopResp fuel s body cl).2) ≤ streamLen s := by
  induction fuel with
  | zero =>
    intro s body cl
    simp only [readBodyLoopResp]
    split <;> (dsimp only; omega)
  | succ fuel ih =>
    intro s body cl
    have hlen := streamRead_len s 512
    simp only [readBodyLoopResp]
    split
    · split
      · split
        · dsimp only; omega
        · dsimp only; omega
      · split
        · dsimp only; omega
        · split
          · dsimp only; omega
          · have ihx := ih (streamRead s 512).2 (body ++ (streamRead s 512).1) cl
            omega
    · dsimp only
      omega

/-- When the response body loop fails with `ResponseBodyTooLarge`, the bytes
consumed from the stream plus the body bytes accumulated before the loop
exceed `MAX_BODY_SIZE`. -/
theorem readBodyLoopResp_rbtl (fuel : Nat) : ∀ (s s' : ByteStream) (body : List Nat)
    (cl : Option Nat),
    readBodyLoopResp fuel s body cl = (.error .ResponseBodyTooLarge, s') →
    MAX_BODY_SIZE < (streamLen s - streamLen s') + body.length := by
  induction fuel with
  | zero =>
    intro s s' body cl h
    simp only [readBodyLoopResp] at h
    split at h <;> simp at h
  | succ fuel ih =>
    intro s s' body cl h
    have hlen := streamRead_len s 512
    have hmono := readBodyLoopResp_stream_mono fuel (streamRead s 512).2
      (body ++ (streamRead s 512).1) cl
    simp only [readBodyLoopResp] at h
    split at h
    · split at h
      · split at h <;> simp at h
      · split at h
        · simp at h
        · split at h
          · rw [Prod.mk.injEq] at h
            rcases h with ⟨_, h2⟩
            subst h2
            omega
          · have ihx := ih (streamRead s 512).2 s' (body ++ (streamRead s 512).1) cl h
            rw [congrArg Prod.snd h] at hmono
            simp only [List.length_append] at ihx
            omega
    · simp at h

/-- One loop iteration that would push the body past `MAX_BODY_SIZE` fails
with `ResponseBodyTooLarge`. -/
theorem readBodyLoopResp_cap_step (fuel : Nat) (s : ByteStream) (body : List Nat) (n : Nat)
    (h1 : body.length < n)
    (h2 : (streamRead s 512).1 ≠ [])
    (h3 : ¬ n < body.length + (streamRead s 512).1.length)
    (h4 : MAX_BODY_SIZE < body.length + (streamRead s 512).1.length) :
    readBodyLoopResp (fuel + 1) s body (some n)
      = (.error .ResponseBodyTooLarge, (streamRead s 512).2) := by
  simp only [readBodyLoopResp]
  rw [if_pos (by simp [bodyCond, h1]),
    if_neg (by simpa [List.length_eq_zero] using h2),
    if_neg (by simp [h3]), if_pos h4]

/-- Claim C10: a response advertising `Content-Length > 10000000` is not
rejected when its headers are parsed: `read_from_stream` proceeds into
`read_body`, and `ResponseBodyTooLarge` is only ever produced once the bytes
consumed from the upstream plus the already-buffered body bytes exceed the
10000000-byte cap. -/
theorem c10_late_oversize_rejection :
    (∀ (s s' : ByteStream) (r : Response) (len n : Nat) (m : List Nat),
        readHeadersResp s = (.ok (r, len), s') →
        getContentLengthResp r = .ok (some n) →
        MAX_BODY_SIZE < n →
        skipBody m r.status = false →
        readResponseFromStream s m =
          (match readBodyResp s' r with
            | (.error e, s2) => (.error e, s2)
            | (.ok b, s2) => (.ok { r with body := b }, s2))) ∧
    (∀ (fuel : Nat) (s s' : ByteStream) (body : List Nat) (cl : Option Nat),
        readBodyLoopResp fuel s body cl = (.error .ResponseBodyTooLarge, s') →
        MAX_BODY_SIZE < (streamLen s - streamLen s') + body.length) := by
  constructor
  · intro s s' r len n m h _ _ hs
    simp only [readResponseFromStream, h, hs, Bool.false_eq_true, if_false]
  · intro fuel s s' body cl h
    exact readBodyLoopResp_rbtl fuel s s' body cl h

/-- Witness for C10: the header phase of a response advertising
`Content-Length: 10000001` succeeds and hands over to the body phase, and a
concrete `ResponseBodyTooLarge` failure (10000000 bytes already buffered, one
more byte read) satisfies the consumption bound. -/
theorem c10_late_oversize_rejection_witness :
    readHeadersResp [strBytes ("HTTP/1.1 200 OK\r\ncontent-length: 10000001\r\n\r\n")]
        = (.ok ({ status := 200, headers := [(strBytes ("content-length"), strBytes ("10000001"))], body := [] }, 45), []) ∧
    getContentLengthResp { status := 200, headers := [(strBytes ("content-length"), strBytes ("10000001"))], body := [] }
      = .ok (some 10000001) ∧
    MAX_BODY_SIZE < 10000001 ∧
    skipBody (strBytes ("GET")) 200 = false ∧
    (readResponseFromStream [strBytes ("HTTP/1.1 200 OK\r\ncontent-length: 10000001\r\n\r\n")]
        (strBytes ("GET"))
      = (match readBodyResp [] { status := 200, headers := [(strBytes ("content-length"), strBytes ("10000001"))], body := [] } with
          | (.error e, s2) => (.error e, s2)
          | (.ok b, s2) =>
            (.ok { status := 200, headers := [(strBytes ("content-length"), strBytes ("10000001"))], body := b }, s2))) ∧
    readBodyLoopResp 1 [[66]] (List.replicate 10000000 66) (some 20000000)
        = (.error .ResponseBodyTooLarge, []) ∧
    MAX_BODY_SIZE < (streamLen [[66]] - streamLen ([] : ByteStream))
        + (List.replicate 10000000 66).length := by
  have hsr : streamRead [[66]] 512 = ([66], []) := by decide
  have hH : readBodyLoopResp 1 [[66]] (List.replicate 10000000 66) (some 20000000)
      = (.error .ResponseBodyTooLarge, []) := by
    have h1 : readBodyLoopResp 1 [[66]] (List.replicate 10000000 66) (some 20000000)
        = readBodyLoopResp (0 + 1) [[66]] (List.replicate 10000000 66) (some 20000000) := rfl
    rw [h1, readBodyLoopResp_cap_step 0 [[66]] (List.replicate 10000000 66) 20000000
      (by rw [List.length_replicate]; decide)
      (by rw [hsr]; decide)
      (by rw [List.length_replicate, hsr]; decide)
      (by rw [List.length_replicate, hsr]; decide), hsr]
  refine ⟨by decide, by decide, by decide, by decide,
    c10_late_oversize_rejection.1
      [strBytes ("HTTP/1.1 200 OK\r\ncontent-length: 10000001\r\n\r\n")] []
      { status := 200, headers := [(strBytes ("content-length"), strBytes ("10000001"))], body := [] }
      45 10000001 (strBytes ("GET")) (by decide) (by decide) (by decide) (by decide),
    hH, ?_⟩
  have := c10_late_oversize_rejection.2 1 [[66]] []
    (List.replicate 10000000 66) (some 20000000) hH
  exact this

/-! ## Well-formedness of messages (used for the framing round trip, C6/C8) -/

theorem not_mem_of_all_pred (l : List Nat) (p : Nat → Bool) (h : l.all p = true)
    (b : Nat) (hb : p b = false) : b ∉ l := by
  intro hm
  have hx := List.all_eq_true.mp h b hm
  rw [hb] at hx
  cases hx

theorem splitCRLF_append (l r : List Nat) (h : 13 ∉ l) :
    splitCRLF (l ++ 13 :: 10 :: r) = some (l, r) := by
  induction l with
  | nil => simp [splitCRLF]
  | cons b t ih =>
    have hb : b ≠ 13 := fun heq => h (heq ▸ List.mem_cons_self b t)
    have ht : 13 ∉ t := fun hm => h (List.mem_cons_of_mem b hm)
    simp only [List.cons_append, splitCRLF]
    rw [if_neg (by simp [hb])]
    rw [List.append_eq, ih ht]
    rfl

theorem splitByte_append (c : Nat) (l r : List Nat) (h : c ∉ l) :
    splitByte c (l ++ c :: r) = some (l, r) := by
  induction l with
  | nil => simp [splitByte]
  | cons b t ih =>
    have hb : b ≠ c := fun heq => h (heq ▸ List.mem_cons_self b t)
    have ht : c ∉ t := fun hm => h (List.mem_cons_of_mem b hm)
    simp only [List.cons_append, splitByte]
    rw [if_neg hb]
    rw [List.append_eq, ih ht]
    rfl

theorem trimWS_cons_space (v : List Nat) : trimWS (32 :: v) = trimWS v := by
  simp [trimWS, List.dropWhile_cons, isWS]

theorem parseHeaderLine_serialized (n v : List Nat) (h : headerWf (n, v) = true) :
    parseHeaderLine (n ++ 58 :: 32 :: v) = some (n, v) := by
  simp only [headerWf, Bool.and_eq_true] at h
  obtain ⟨⟨⟨⟨hne, hall⟩, hlow⟩, hvall⟩, htrim⟩ := h
  have h58 : 58 ∉ n := not_mem_of_all_pred n isNameByte hall 58 (by decide)
  simp only [parseHeaderLine]
  rw [splitByte_append 58 n (32 :: v) h58]
  simp only [hne, hall, Bool.and_self, if_true]
  rw [trimWS_cons_space]
  rw [beq_iff_eq.mp hlow, beq_iff_eq.mp htrim]

/-- No CR or LF occurs inside a serialized header line. -/
theorem headerLine_no13 (n v : List Nat) (h : headerWf (n, v) = true) :
    13 ∉ n ++ 58 :: 32 :: v := by
  simp only [headerWf, Bool.and_eq_true] at h
  obtain ⟨⟨⟨⟨hne, hall⟩, hlow⟩, hvall⟩, htrim⟩ := h
  intro hm
  rcases List.mem_append.mp hm with h1 | h2
  · exact not_mem_of_all_pred n isNameByte hall 13 (by decide) h1
  · rcases h2 with _ | ⟨_, h3⟩
    rcases h3 with _ | ⟨_, h4⟩
    exact not_mem_of_all_pred v isValueByte hvall 13 (by decide) h4

theorem headerWf_name_ne_nil (n v : List Nat) (h : headerWf (n, v) = true) : n ≠ [] := by
  simp only [headerWf, Bool.and_eq_true] at h
  obtain ⟨⟨⟨⟨h1, _⟩, _⟩, _⟩, _⟩ := h
  cases n with
  | nil => simp at h1
  | cons b t => exact List.cons_ne_nil b t

theorem headerWf_head_ne_13 (b : Nat) (nb v : List Nat)
    (h : headerWf (b :: nb, v) = true) : b ≠ 13 := by
  simp only [headerWf, Bool.and_eq_true] at h
  obtain ⟨⟨⟨⟨_, h2⟩, _⟩, _⟩, _⟩ := h
  have := List.all_eq_true.mp h2 b (List.mem_cons_self b nb)
  simp only [isNameByte, Bool.and_eq_true, decide_eq_true_eq] at this
  omega

theorem parseHeadersAux_serialized (hs : List (List Nat × List Nat)) :
    ∀ (fuel : Nat) (acc : List (List Nat × List Nat)) (suffix : List Nat),
    headersWf hs = true →
    acc.length + hs.length ≤ MAX_NUM_HEADERS →
    hs.length + 1 ≤ fuel →
    parseHeadersAux fuel (serializeHeaders hs ++ 13 :: 10 :: suffix) acc
      = .ok (some (acc.reverse ++ hs, suffix)) := by
  induction hs with
  | nil =>
    intro fuel acc suffix _ _ hf
    cases fuel with
    | zero => omega
    | succ f => simp [serializeHeaders, parseHeadersAux]
  | cons p t ih =>
    rcases p with ⟨n, v⟩
    intro fuel acc suffix hwf hcount hf
    simp only [headersWf, List.all_cons, Bool.and_eq_true] at hwf
    obtain ⟨hp, ht⟩ := hwf
    cases fuel with
    | zero => simp only [List.length_cons] at hf; omega
    | succ f =>
      cases n with
      | nil => exact absurd rfl (headerWf_name_ne_nil [] v hp)
      | cons b nb =>
        have hb13 : b ≠ 13 := headerWf_head_ne_13 b nb v hp
        have hbuf : serializeHeaders ((b :: nb, v) :: t) ++ 13 :: 10 :: suffix
            = b :: (nb ++ 58 :: 32 ::
                (v ++ 13 :: 10 :: (serializeHeaders t ++ 13 :: 10 :: suffix))) := by
          simp [serializeHeaders, List.append_assoc]
        have hsplit : splitCRLF (b :: (nb ++ 58 :: 32 ::
              (v ++ 13 :: 10 :: (serializeHeaders t ++ 13 :: 10 :: suffix))))
            = some ((b :: nb) ++ 58 :: 32 :: v,
                serializeHeaders t ++ 13 :: 10 :: suffix) := by
          have hx := splitCRLF_append ((b :: nb) ++ 58 :: 32 :: v)
            (serializeHeaders t ++ 13 :: 10 :: suffix) (headerLine_no13 (b :: nb) v hp)
          simpa [List.cons_append, List.append_assoc] using hx
        have hline := parseHeaderLine_serialized (b :: nb) v hp
        rw [hbuf]
        simp only [parseHeadersAux, List.head?_cons]
        rw [if_neg (by intro hc; exact hb13 (Option.some.injEq b 13 ▸ (by simpa using hc.1)))]
        simp only [hsplit, hline]
        rw [if_neg (by simp only [List.length_cons] at hcount; omega)]
        rw [ih f ((b :: nb, v) :: acc) suffix ht
          (by simp only [List.length_cons] at hcount ⊢; omega)
          (by simp only [List.length_cons] at hf; omega)]
        simp [List.append_assoc]

/-- Past 32 accumulated headers, a 33rd well-formed header line makes the
header parser fail (`TooManyHeaders` in `httparse`, `MalformedRequest` /
`MalformedResponse` once mapped). -/
theorem parseHeadersAux_tooMany (hs : List (List Nat × List Nat)) :
    ∀ (fuel : Nat) (acc : List (List Nat × List Nat)) (suffix : List Nat),
    headersWf hs = true →
    MAX_NUM_HEADERS < acc.length + hs.length →
    acc.length ≤ MAX_NUM_HEADERS →
    hs.length + 1 ≤ fuel →
    parseHeadersAux fuel (serializeHeaders hs ++ 13 :: 10 :: suffix) acc
      = .error () := by
  induction hs with
  | nil =>
    intro fuel acc suffix _ h1 h2 _
    simp only [List.length_nil] at h1
    omega
  | cons p t ih =>
    rcases p with ⟨n, v⟩
    intro fuel acc suffix hwf hcount hacc hf
    simp only [headersWf, List.all_cons, Bool.and_eq_true] at hwf
    obtain ⟨hp, ht⟩ := hwf
    cases fuel with
    | zero => simp only [List.length_cons] at hf; omega
    | succ f =>
      cases n with
      | nil => exact absurd rfl (headerWf_name_ne_nil [] v hp)
      | cons b nb =>
        have hb13 : b ≠ 13 := headerWf_head_ne_13 b nb v hp
        have hbuf : serializeHeaders ((b :: nb, v) :: t) ++ 13 :: 10 :: suffix
            = b :: (nb ++ 58 :: 32 ::
                (v ++ 13 :: 10 :: (serializeHeaders t ++ 13 :: 10 :: suffix))) := by
          simp [serializeHeaders, List.append_assoc]
        have hsplit : splitCRLF (b :: (nb ++ 58 :: 32 ::
              (v ++ 13 :: 10 :: (serializeHeaders t ++ 13 :: 10 :: suffix))))
            = some ((b :: nb) ++ 58 :: 32 :: v,
                serializeHeaders t ++ 13 :: 10 :: suffix) := by
          have hx := splitCRLF_append ((b :: nb) ++ 58 :: 32 :: v)
            (serializeHeaders t ++ 13 :: 10 :: suffix) (headerLine_no13 (b :: nb) v hp)
          simpa [List.cons_append, List.append_assoc] using hx
        have hline := parseHeaderLine_serialized (b :: nb) v hp
        rw [hbuf]
        simp only [parseHeadersAux, List.head?_cons]
        rw [if_neg (by intro hc; exact hb13 (Option.some.injEq b 13 ▸ (by simpa using hc.1)))]
        simp only [hsplit, hline]
        by_cases hfull : MAX_NUM_HEADERS ≤ acc.length
        · rw [if_pos hfull]
        · rw [if_neg hfull]
          exact ih f ((b :: nb, v) :: acc) suffix ht
            (by simp only [List.length_cons] at hcount ⊢; omega)
            (by simp only [List.length_cons]; omega)
            (by simp only [List.length_cons] at hf; omega)

/-- Well-formed headers serialize to at least one byte each. -/
theorem serializeHeaders_len (hs : List (List Nat × List Nat))
    (h : headersWf hs = true) : hs.length ≤ (serializeHeaders hs).length := by
  induction hs with
  | nil => simp [serializeHeaders]
  | cons p t ih =>
    rcases p with ⟨n, v⟩
    simp only [headersWf, List.all_cons, Bool.and_eq_true] at h
    obtain ⟨hp, ht⟩ := h
    have hn : 0 < n.length :=
      List.length_pos.mpr (headerWf_name_ne_nil n v hp)
    have ihx := ih ht
    simp only [serializeHeaders, List.length_cons, List.length_append]
    omega

/-- A successful header-block parse returns at most 32 headers. -/
theorem parseHeadersAux_count (fuel : Nat) : ∀ (buf : List Nat)
    (acc hs : List (List Nat × List Nat)) (rest : List Nat),
    acc.length ≤ MAX_NUM_HEADERS →
    parseHeadersAux fuel buf acc = .ok (some (hs, rest)) →
    hs.length ≤ MAX_NUM_HEADERS := by
  induction fuel with
  | zero =>
    intro buf acc hs rest _ h
    rw [show parseHeadersAux 0 buf acc = .error () from rfl] at h
    exact Except.noConfusion h
  | succ fuel ih =>
    intro buf acc hs rest hacc h
    simp only [parseHeadersAux] at h
    split at h
    · simp only [Except.ok.injEq, Option.some.injEq, Prod.mk.injEq] at h
      obtain ⟨h1, _⟩ := h
      rw [← h1]
      simpa using hacc
    · split at h
      · simp at h
      · split at h
        · simp at h
        · split at h
          · simp at h
          · refine ih _ _ _ _ ?_ h
            simp only [List.length_cons]
            omega

theorem parseRequestLine_serialized (m u : List Nat)
    (hm1 : m.isEmpty = false) (hm2 : m.all isFieldByte = true)
    (hu1 : u.isEmpty = false) (hu2 : u.all isFieldByte = true) :
    parseRequestLine (m ++ 32 :: (u ++ 32 :: strBytes ("HTTP/1.1"))) = some (m, u) := by
  have h32m : 32 ∉ m := not_mem_of_all_pred m isFieldByte hm2 32 (by decide)
  have h32u : 32 ∉ u := not_mem_of_all_pred u isFieldByte hu2 32 (by decide)
  have hs1 := splitByte_append 32 m (u ++ 32 :: strBytes ("HTTP/1.1")) h32m
  have hs2 := splitByte_append 32 u (strBytes ("HTTP/1.1")) h32u
  simp only [parseRequestLine, hs1, hs2, hm1, hm2, hu1, hu2]
  simp

theorem requestLine_no13 (m u : List Nat)
    (hm2 : m.all isFieldByte = true) (hu2 : u.all isFieldByte = true) :
    13 ∉ m ++ 32 :: (u ++ 32 :: strBytes ("HTTP/1.1")) := by
  intro hmem
  rcases List.mem_append.mp hmem with h | h
  · exact not_mem_of_all_pred m isFieldByte hm2 13 (by decide) h
  · rcases List.mem_cons.mp h with h1 | h2
    · exact absurd h1 (by decide)
    · rcases List.mem_append.mp h2 with h3 | h4
      · exact not_mem_of_all_pred u isFieldByte hu2 13 (by decide) h3
      · rcases List.mem_cons.mp h4 with h5 | h6
        · exact absurd h5 (by decide)
        · exact absurd h6 (by decide)

theorem parseRequest_serialized (r : Request) (suffix : List Nat)
    (hline : requestLineWf r = true)
    (hh : headersWf r.headers = true)
    (hc : r.headers.length ≤ MAX_NUM_HEADERS) :
    parseRequest (serializeRequestHead r ++ suffix)
      = .ok (some ({ method := r.method, uri := r.uri, headers := r.headers, body := [] },
          (serializeRequestHead r).length)) := by
  rcases r with ⟨m, u, hs, bd⟩
  simp only [requestLineWf, Bool.and_eq_true] at hline
  obtain ⟨⟨⟨hm1, hm2⟩, hu1⟩, hu2⟩ := hline
  have hm1' : m.isEmpty = false := by simpa using hm1
  have hu1' : u.isEmpty = false := by simpa using hu1
  dsimp only at hh hc ⊢
  have h13 := requestLine_no13 m u hm2 hu2
  have hbuf : serializeRequestHead ⟨m, u, hs, bd⟩ ++ suffix
      = (m ++ 32 :: (u ++ 32 :: strBytes ("HTTP/1.1"))) ++
          13 :: 10 :: (serializeHeaders hs ++ 13 :: 10 :: suffix) := by
    simp [serializeRequestHead, crlf, List.append_assoc]
  have hsplit := splitCRLF_append (m ++ 32 :: (u ++ 32 :: strBytes ("HTTP/1.1")))
    (serializeHeaders hs ++ 13 :: 10 :: suffix) h13
  have hpl := parseRequestLine_serialized m u hm1' hm2 hu1' hu2
  have hph := parseHeadersAux_serialized hs
    ((serializeHeaders hs ++ 13 :: 10 :: suffix).length + 1) [] suffix hh
    (by simpa using hc)
    (by have := serializeHeaders_len hs hh
        simp only [List.length_append]
        omega)
  rw [hbuf]
  simp only [parseRequest, hsplit, hpl, hph, List.reverse_nil, List.nil_append]
  simp only [Except.ok.injEq, Option.some.injEq, Prod.mk.injEq]
  refine ⟨trivial, ?_⟩
  have hlcong := congrArg List.length hbuf
  simp only [List.length_append, List.length_cons] at hlcong ⊢
  omega

theorem statusBytes_digits (c : Nat) (h1 : 100 ≤ c) (h2 : c ≤ 999) :
    isDigit (c / 100 + 48) = true ∧ isDigit (c / 10 % 10 + 48) = true ∧
      isDigit (c % 10 + 48) = true ∧ 49 ≤ c / 100 + 48 := by
  refine ⟨?_, ?_, ?_, ?_⟩ <;> simp [isDigit] <;> omega

theorem statusLine_no13 (c : Nat) (reason : List Nat) (h1 : 100 ≤ c) (h2 : c ≤ 999)
    (hr : 13 ∉ reason) :
    13 ∉ strBytes ("HTTP/1.1 ") ++ (statusBytes c ++ 32 :: reason) := by
  intro hmem
  rcases List.mem_append.mp hmem with h | h
  · exact absurd h (by decide)
  · rcases List.mem_append.mp h with h3 | h4
    · simp only [statusBytes, List.mem_cons, List.not_mem_nil, or_false] at h3
      rcases h3 with h5 | h5 | h5 <;> omega
    · rcases List.mem_cons.mp h4 with h5 | h6
      · exact absurd h5 (by decide)
      · exact hr h6

theorem parseStatusLine_serialized (c : Nat) (reason : List Nat)
    (h1 : 100 ≤ c) (h2 : c ≤ 999) :
    parseStatusLine (strBytes ("HTTP/1.1 ") ++ (statusBytes c ++ 32 :: reason)) = some c := by
  obtain ⟨hd1, hd2, hd3, hd4⟩ := statusBytes_digits c h1 h2
  have h9 : (strBytes ("HTTP/1.1 ")).length = 9 := by decide
  have ht : (strBytes ("HTTP/1.1 ") ++ (statusBytes c ++ 32 :: reason)).take 9
      = strBytes ("HTTP/1.1 ") := by
    rw [← h9, List.take_left]
  have hd : (strBytes ("HTTP/1.1 ") ++ (statusBytes c ++ 32 :: reason)).drop 9
      = statusBytes c ++ 32 :: reason := by
    rw [← h9, List.drop_left]
  simp only [parseStatusLine, ht, hd, if_true]
  simp only [statusBytes, List.cons_append, List.nil_append]
  rw [if_pos (by simp [hd1, hd2, hd3]; omega)]
  simp only [Option.some.injEq]
  omega

theorem parseResponse_serialized (r : Response) (suffix : List Nat)
    (hst1 : 100 ≤ r.status) (hst2 : r.status ≤ 999)
    (hh : headersWf r.headers = true)
    (hc : r.headers.length ≤ MAX_NUM_HEADERS) :
    parseResponse (serializeResponseHead r ++ suffix)
      = .ok (some ({ status := r.status, headers := r.headers, body := [] },
          (serializeResponseHead r).length)) := by
  rcases r with ⟨c, hs, bd⟩
  dsimp only at hst1 hst2 hh hc ⊢
  have hr13 : 13 ∉ canonicalReason c := by
    unfold canonicalReason
    split <;> decide
  have h13 := statusLine_no13 c (canonicalReason c) hst1 hst2 hr13
  have hbuf : serializeResponseHead ⟨c, hs, bd⟩ ++ suffix
      = (strBytes ("HTTP/1.1 ") ++ (statusBytes c ++ 32 :: canonicalReason c)) ++
          13 :: 10 :: (serializeHeaders hs ++ 13 :: 10 :: suffix) := by
    simp [serializeResponseHead, crlf, List.append_assoc]
  have hsplit := splitCRLF_append
    (strBytes ("HTTP/1.1 ") ++ (statusBytes c ++ 32 :: canonicalReason c))
    (serializeHeaders hs ++ 13 :: 10 :: suffix) h13
  have hpl := parseStatusLine_serialized c (canonicalReason c) hst1 hst2
  have hph := parseHeadersAux_serialized hs
    ((serializeHeaders hs ++ 13 :: 10 :: suffix).length + 1) [] suffix hh
    (by simpa using hc)
    (by have := serializeHeaders_len hs hh
        simp only [List.length_append]
        omega)
  rw [hbuf]
  simp only [parseResponse, hsplit, hpl, hph, List.reverse_nil, List.nil_append]
  simp only [Except.ok.injEq, Option.some.injEq, Prod.mk.injEq]
  refine ⟨trivial, ?_⟩
  have hlcong := congrArg List.length hbuf
  simp only [List.length_append, List.length_cons] at hlcong ⊢
  omega

/-! ## Claim C8: size invariants of parsed messages -/

theorem parseRequest_bounds (buf : List Nat) (req : Request) (len : Nat)
    (h : parseRequest buf = .ok (some (req, len))) :
    req.headers.length ≤ MAX_NUM_HEADERS ∧ len ≤ buf.length ∧ req.body = [] := by
  simp only [parseRequest] at h
  split at h
  · simp at h
  · split at h
    · simp at h
    · split at h
      · simp at h
      · simp at h
      · rename_i hs2 rest2 haux
        simp only [Except.ok.injEq, Option.some.injEq, Prod.mk.injEq] at h
        obtain ⟨hreq, hlen⟩ := h
        rw [← hreq]
        refine ⟨?_, ?_, rfl⟩
        · exact parseHeadersAux_count _ _ _ _ _ (by simp) haux
        · omega

theorem parseResponse_bounds (buf : List Nat) (r : Response) (len : Nat)
    (h : parseResponse buf = .ok (some (r, len))) :
    r.headers.length ≤ MAX_NUM_HEADERS ∧ len ≤ buf.length ∧ r.body = [] := by
  simp only [parseResponse] at h
  split at h
  · simp at h
  · split at h
    · simp at h
    · split at h
      · simp at h
      · simp at h
      · rename_i hs2 rest2 haux
        simp only [Except.ok.injEq, Option.some.injEq, Prod.mk.injEq] at h
        obtain ⟨hreq, hlen⟩ := h
        rw [← hreq]
        refine ⟨?_, ?_, rfl⟩
        · exact parseHeadersAux_count _ _ _ _ _ (by simp) haux
        · omega

theorem readHeadersLoopReq_bounds (fuel : Nat) : ∀ (s s' : ByteStream) (buf : List Nat)
    (req : Request) (len : Nat),
    buf.length ≤ MAX_HEADERS_SIZE →
    readHeadersLoopReq fuel s buf = (.ok (req, len), s') →
    req.headers.length ≤ MAX_NUM_HEADERS ∧ len ≤ MAX_HEADERS_SIZE ∧
      req.body.length ≤ MAX_HEADERS_SIZE := by
  induction fuel with
  | zero =>
    intro s s' buf req len _ h
    simp only [readHeadersLoopReq] at h
    simp at h
  | succ fuel ih =>
    intro s s' buf req len hbuf h
    have hle := streamRead_take_le s (MAX_HEADERS_SIZE - buf.length)
    simp only [readHeadersLoopReq] at h
    split at h
    · simp at h
    · split at h
      · simp at h
      · rename_i req0 len0 hparse
        have hb := parseRequest_bounds _ _ _ hparse
        simp only [Prod.mk.injEq, Except.ok.injEq] at h
        obtain ⟨⟨hreq, hlen⟩, _⟩ := h
        rw [← hreq, ← hlen]
        have hlen2 : (buf ++ (streamRead s (MAX_HEADERS_SIZE - buf.length)).1).length
            ≤ MAX_HEADERS_SIZE := by
          simp only [List.length_append]
          omega
        refine ⟨hb.1, by omega, ?_⟩
        simp only [List.length_drop]
        omega
      · exact ih _ _ _ _ _ (by simp only [List.length_append]; omega) h

theorem readHeadersLoopResp_bounds (fuel : Nat) : ∀ (s s' : ByteStream) (buf : List Nat)
    (r : Response) (len : Nat),
    buf.length ≤ MAX_HEADERS_SIZE →
    readHeadersLoopResp fuel s buf = (.ok (r, len), s') →
    r.headers.length ≤ MAX_NUM_HEADERS ∧ len ≤ MAX_HEADERS_SIZE ∧
      r.body.length ≤ MAX_HEADERS_SIZE := by
  induction fuel with
  | zero =>
    intro s s' buf r len _ h
    simp only [readHeadersLoopResp] at h
    simp at h
  | succ fuel ih =>
    intro s s' buf r len hbuf h
    have hle := streamRead_take_le s (MAX_HEADERS_SIZE - buf.length)
    simp only [readHeadersLoopResp] at h
    split at h
    · simp at h
    · split at h
      · simp at h
      · rename_i r0 len0 hparse
        have hb := parseResponse_bounds _ _ _ hparse
        simp only [Prod.mk.injEq, Except.ok.injEq] at h
        obtain ⟨⟨hreq, hlen⟩, _⟩ := h
        rw [← hreq, ← hlen]
        have hlen2 : (buf ++ (streamRead s (MAX_HEADERS_SIZE - buf.length)).1).length
            ≤ MAX_HEADERS_SIZE := by
          simp only [List.length_append]
          omega
        refine ⟨hb.1, by omega, ?_⟩
        simp only [List.length_drop]
        omega
      · exact ih _ _ _ _ _ (by simp only [List.length_append]; omega) h

theorem readBodyLoopReq_ok_le (fuel : Nat) : ∀ (s s' : ByteStream) (body : List Nat)
    (cl : Nat) (b : List Nat),
    readBodyLoopReq fuel s body cl = (.ok b, s') →
    b.length ≤ body.length ∨ b.length ≤ cl := by
  induction fuel with
  | zero =>
    intro s s' body cl b h
    simp only [readBodyLoopReq] at h
    split at h
    · simp only [Prod.mk.injEq, Except.ok.injEq] at h
      left
      rw [← h.1]
    · simp at h
  | succ fuel ih =>
    intro s s' body cl b h
    simp only [readBodyLoopReq] at h
    split at h
    · simp only [Prod.mk.injEq, Except.ok.injEq] at h
      left
      rw [← h.1]
    · split at h
      · simp at h
      · split at h
        · simp at h
        · rename_i hguard hz hover
          have ihx := ih _ _ _ _ _ h
          simp only [List.length_append] at ihx
          right
          omega

theorem readBodyLoopResp_ok_le (fuel : Nat) : ∀ (s s' : ByteStream) (body : List Nat)
    (cl : Option Nat) (b : List Nat),
    readBodyLoopResp fuel s body cl = (.ok b, s') →
    b.length ≤ body.length ∨ b.length ≤ MAX_BODY_SIZE := by
  induction fuel with
  | zero =>
    intro s s' body cl b h
    simp only [readBodyLoopResp] at h
    split at h
    · simp at h
    · simp only [Prod.mk.injEq, Except.ok.injEq] at h
      left
      rw [← h.1]
  | succ fuel ih =>
    intro s s' body cl b h
    simp only [readBodyLoopResp] at h
    split at h
    · split at h
      · split at h
        · simp only [Prod.mk.injEq, Except.ok.injEq] at h
          left
          rw [← h.1]
        · simp at h
      · split at h
        · simp at h
        · split at h
          · simp at h
          · rename_i hguard hz hover hcap
            have ihx := ih _ _ _ _ _ h
            simp only [List.length_append] at ihx
            right
            omega
    · simp only [Prod.mk.injEq, Except.ok.injEq] at h
      left
      rw [← h.1]

/-- Claim C8: every message the codec returns has at most 32 headers and a
body of at most 10000000 bytes; the raw header block consumed is at most
8000 bytes; and a wire image whose header block carries more than 32
well-formed headers is rejected as malformed. -/
theorem c8_size_invariants :
    (∀ (s : ByteStream) (req : Request),
        (readRequestFromStream s).1 = .ok req →
        req.headers.length ≤ MAX_NUM_HEADERS ∧ req.body.length ≤ MAX_BODY_SIZE) ∧
    (∀ (s s' : ByteStream) (req : Request) (len : Nat),
        readHeadersReq s = (.ok (req, len), s') → len ≤ MAX_HEADERS_SIZE) ∧
    (∀ (s : ByteStream) (m : List Nat) (r : Response),
        (readResponseFromStream s m).1 = .ok r →
        r.headers.length ≤ MAX_NUM_HEADERS ∧ r.body.length ≤ MAX_BODY_SIZE) ∧
    (∀ (s s' : ByteStream) (r : Response) (len : Nat),
        readHeadersResp s = (.ok (r, len), s') → len ≤ MAX_HEADERS_SIZE) ∧
    (∀ (r : Request),
        requestLineWf r = true → headersWf r.headers = true →
        MAX_NUM_HEADERS < r.headers.length →
        parseRequest (serializeRequest r) = .error .MalformedRequest) := by
  refine ⟨?_, ?_, ?_, ?_, ?_⟩
  · intro s req h
    simp only [readRequestFromStream] at h
    split at h
    · simp at h
    · rename_i req0 len s' hhead
      have hb := readHeadersLoopReq_bounds _ _ _ _ _ _ (by simp) hhead
      split at h
      · simp at h
      · injection h with h2
        subst h2
        refine ⟨hb.1, ?_⟩
        have := hb.2.2
        simp only [MAX_HEADERS_SIZE, MAX_BODY_SIZE] at this ⊢
        omega
      · split at h
        · simp at h
        · split at h
          · simp at h
          · rename_i nval hlt hscrut b s'' hbody
            have hble := readBodyLoopReq_ok_le _ _ _ _ _ _ hbody
            injection h with h2
            subst h2
            refine ⟨hb.1, ?_⟩
            have h1 := hb.2.2
            simp only [MAX_HEADERS_SIZE, MAX_BODY_SIZE] at h1 hlt hble ⊢
            rcases hble with hb1 | hb2 <;> omega
  · intro s s' req len h
    exact (readHeadersLoopReq_bounds _ _ _ _ _ _ (by simp) h).2.1
  · intro s m r h
    simp only [readResponseFromStream] at h
    split at h
    · simp at h
    · rename_i r0 len s' hhead
      have hb := readHeadersLoopResp_bounds _ _ _ _ _ _ (by simp) hhead
      split at h
      · injection h with h2
        subst h2
        refine ⟨hb.1, ?_⟩
        have := hb.2.2
        simp only [MAX_HEADERS_SIZE, MAX_BODY_SIZE] at this ⊢
        omega
      · split at h
        · simp at h
        · rename_i b s'' hbody
          simp only [readBodyResp] at hbody
          split at hbody
          · simp at hbody
          · rename_i cl hcl
            have hble := readBodyLoopResp_ok_le _ _ _ _ _ _ hbody
            injection h with h2
            subst h2
            refine ⟨hb.1, ?_⟩
            have h1 := hb.2.2
            simp only [MAX_HEADERS_SIZE, MAX_BODY_SIZE] at h1 hble ⊢
            rcases hble with hb1 | hb2 <;> omega
  · intro s s' r len h
    exact (readHeadersLoopResp_bounds _ _ _ _ _ _ (by simp) h).2.1
  · intro r hline hhw hcnt
    rcases r with ⟨m, u, hs, bd⟩
    simp only [requestLineWf, Bool.and_eq_true] at hline
    obtain ⟨⟨⟨hm1, hm2⟩, hu1⟩, hu2⟩ := hline
    dsimp only at hhw hcnt ⊢
    have hm1' : m.isEmpty = false := by simpa using hm1
    have hu1' : u.isEmpty = false := by simpa using hu1
    have h13 := requestLine_no13 m u hm2 hu2
    have hbuf : serializeRequest ⟨m, u, hs, bd⟩
        = (m ++ 32 :: (u ++ 32 :: strBytes ("HTTP/1.1"))) ++
            13 :: 10 :: (serializeHeaders hs ++ 13 :: 10 :: bd) := by
      simp [serializeRequest, serializeRequestHead, crlf, List.append_assoc]
    have hsplit := splitCRLF_append (m ++ 32 :: (u ++ 32 :: strBytes ("HTTP/1.1")))
      (serializeHeaders hs ++ 13 :: 10 :: bd) h13
    have hpl := parseRequestLine_serialized m u hm1' hm2 hu1' hu2
    have hph := parseHeadersAux_tooMany hs
      ((serializeHeaders hs ++ 13 :: 10 :: bd).length + 1) [] bd hhw
      (by simpa using hcnt) (by simp)
      (by have := serializeHeaders_len hs hhw
          simp only [List.length_append]
          omega)
    rw [hbuf]
    simp only [parseRequest, hsplit, hpl, hph]

/-- Witness for C8: concrete successful reads on both sides, and a concrete
33-header request rejected by the parser. -/
theorem c8_size_invariants_witness :
    ((readRequestFromStream [strBytes ("POST / HTTP/1.1\r\ncontent-length: 4\r\n\r\nHeyo")]).1
        = .ok { method := strBytes ("POST"), uri := strBytes ("/"),
                headers := [(strBytes ("content-length"), strBytes ("4"))],
                body := strBytes ("Heyo") } ∧
      ({ method := strBytes ("POST"), uri := strBytes ("/"),
         headers := [(strBytes ("content-length"), strBytes ("4"))],
         body := strBytes ("Heyo") } : Request).headers.length ≤ MAX_NUM_HEADERS ∧
      ({ method := strBytes ("POST"), uri := strBytes ("/"),
         headers := [(strBytes ("content-length"), strBytes ("4"))],
         body := strBytes ("Heyo") } : Request).body.length ≤ MAX_BODY_SIZE) ∧
    (readHeadersReq [strBytes ("GET / HTTP/1.1\r\n\r\n")]
        = (.ok ({ method := strBytes ("GET"), uri := strBytes ("/"),
                  headers := [], body := [] }, 18), []) ∧
      18 ≤ MAX_HEADERS_SIZE) ∧
    ((readResponseFromStream [strBytes ("HTTP/1.1 200 OK\r\ncontent-length: 2\r\n\r\nhi")]
          (strBytes ("GET"))).1
        = .ok { status := 200,
                headers := [(strBytes ("content-length"), strBytes ("2"))],
                body := strBytes ("hi") } ∧
      ({ status := 200, headers := [(strBytes ("content-length"), strBytes ("2"))],
         body := strBytes ("hi") } : Response).headers.length ≤ MAX_NUM_HEADERS ∧
      ({ status := 200, headers := [(strBytes ("content-length"), strBytes ("2"))],
         body := strBytes ("hi") } : Response).body.length ≤ MAX_BODY_SIZE) ∧
    (MAX_NUM_HEADERS <
        (List.replicate 33 (strBytes ("a"), strBytes ("b"))).length ∧
      parseRequest (serializeRequest { method := strBytes ("GET"), uri := strBytes ("/"), headers := List.replicate 33 (strBytes ("a"), strBytes ("b")), body := [] })
        = .error .MalformedRequest) := by
  refine ⟨⟨by decide, ?_, ?_⟩, ⟨by decide, by decide⟩, ⟨by decide, ?_, ?_⟩, ⟨by decide, ?_⟩⟩
  · exact (c8_size_invariants.1 [strBytes ("POST / HTTP/1.1\r\ncontent-length: 4\r\n\r\nHeyo")]
      _ (by decide)).1
  · exact (c8_size_invariants.1 [strBytes ("POST / HTTP/1.1\r\ncontent-length: 4\r\n\r\nHeyo")]
      _ (by decide)).2
  · exact (c8_size_invariants.2.2.1 [strBytes ("HTTP/1.1 200 OK\r\ncontent-length: 2\r\n\r\nhi")]
      (strBytes ("GET")) _ (by decide)).1
  · exact (c8_size_invariants.2.2.1 [strBytes ("HTTP/1.1 200 OK\r\ncontent-length: 2\r\n\r\nhi")]
      (strBytes ("GET")) _ (by decide)).2
  · exact c8_size_invariants.2.2.2.2 { method := strBytes ("GET"), uri := strBytes ("/"), headers := List.replicate 33 (strBytes ("a"), strBytes ("b")), body := [] }
      (by decide) (by decide) (by decide)

/-! ## Claim C6: framing round trip -/

theorem streamLen_streamOf (l : List Nat) : streamLen (streamOf l) = l.length := by
  cases l with
  | nil => rfl
  | cons x t => simp [streamOf, streamLen]

theorem streamRead_single (c : List Nat) (n : Nat) :
    streamRead [c] n = (c.take n, streamOf (c.drop n)) := by
  simp only [streamRead, streamOf]

theorem readHeadersReq_single (r : Request) (b : List Nat)
    (hline : requestLineWf r = true) (hh : headersWf r.headers = true)
    (hc : r.headers.length ≤ MAX_NUM_HEADERS)
    (hlen : (serializeRequestHead r).length ≤ MAX_HEADERS_SIZE) :
    readHeadersReq [serializeRequestHead r ++ b]
      = (.ok ({ r with body := b.take (MAX_HEADERS_SIZE - (serializeRequestHead r).length) },
            (serializeRequestHead r).length),
          streamOf (b.drop (MAX_HEADERS_SIZE - (serializeRequestHead r).length))) := by
  have hHpos : 0 < (serializeRequestHead r).length := by
    simp only [serializeRequestHead, List.length_append, List.length_cons]
    omega
  have hsr := streamRead_single (serializeRequestHead r ++ b) MAX_HEADERS_SIZE
  have htake : (serializeRequestHead r ++ b).take MAX_HEADERS_SIZE
      = serializeRequestHead r ++ b.take (MAX_HEADERS_SIZE - (serializeRequestHead r).length) := by
    rw [List.take_append_eq_append_take, List.take_of_length_le hlen]
  have hdrop : (serializeRequestHead r ++ b).drop MAX_HEADERS_SIZE
      = b.drop (MAX_HEADERS_SIZE - (serializeRequestHead r).length) := by
    rw [List.drop_append_eq_append_drop, List.drop_eq_nil_of_le hlen, List.nil_append]
  have hne0 : ¬ ((serializeRequestHead r ++
      b.take (MAX_HEADERS_SIZE - (serializeRequestHead r).length)).length = 0) := by
    simp only [List.length_append]
    omega
  have hparse := parseRequest_serialized r
    (b.take (MAX_HEADERS_SIZE - (serializeRequestHead r).length)) hline hh hc
  simp only [readHeadersReq, readHeadersLoopReq, List.length_nil, Nat.sub_zero,
    hsr, htake, hdrop, List.nil_append]
  rw [if_neg hne0]
  simp only [hparse]
  rw [List.drop_left]

theorem readHeadersResp_chunk (H b : List Nat) (st : Nat) (hs : List (List Nat × List Nat))
    (hHpos : 0 < H.length)
    (hlen : H.length ≤ MAX_HEADERS_SIZE)
    (hparse : parseResponse (H ++ b.take (MAX_HEADERS_SIZE - H.length))
      = .ok (some ({ status := st, headers := hs, body := [] }, H.length))) :
    readHeadersResp [H ++ b]
      = (.ok ({ status := st, headers := hs,
                body := b.take (MAX_HEADERS_SIZE - H.length) }, H.length),
          streamOf (b.drop (MAX_HEADERS_SIZE - H.length))) := by
  have hsr := streamRead_single (H ++ b) MAX_HEADERS_SIZE
  have htake : (H ++ b).take MAX_HEADERS_SIZE
      = H ++ b.take (MAX_HEADERS_SIZE - H.length) := by
    rw [List.take_append_eq_append_take, List.take_of_length_le hlen]
  have hdrop : (H ++ b).drop MAX_HEADERS_SIZE
      = b.drop (MAX_HEADERS_SIZE - H.length) := by
    rw [List.drop_append_eq_append_drop, List.drop_eq_nil_of_le hlen, List.nil_append]
  have hne0 : ¬ ((H ++ b.take (MAX_HEADERS_SIZE - H.length)).length = 0) := by
    simp only [List.length_append]
    omega
  simp only [readHeadersResp, readHeadersLoopResp, List.length_nil, Nat.sub_zero,
    hsr, htake, hdrop, List.nil_append]
  rw [if_neg hne0]
  simp only [hparse]
  rw [List.drop_left]

theorem readHeadersResp_single (r : Response) (b : List Nat)
    (hst1 : 100 ≤ r.status) (hst2 : r.status ≤ 999)
    (hh : headersWf r.headers = true)
    (hc : r.headers.length ≤ MAX_NUM_HEADERS)
    (hlen : (serializeResponseHead r).length ≤ MAX_HEADERS_SIZE) :
    readHeadersResp [serializeResponseHead r ++ b]
      = (.ok ({ r with body := b.take (MAX_HEADERS_SIZE - (serializeResponseHead r).length) },
            (serializeResponseHead r).length),
          streamOf (b.drop (MAX_HEADERS_SIZE - (serializeResponseHead r).length))) := by
  have hHpos : 0 < (serializeResponseHead r).length := by
    simp only [serializeResponseHead, List.length_append, List.length_cons]
    omega
  exact readHeadersResp_chunk (serializeResponseHead r) b r.status r.headers hHpos hlen
    (parseResponse_serialized r _ hst1 hst2 hh hc)

theorem readBodyLoopReq_rt (fuel : Nat) : ∀ (T D : List Nat) (cl : Nat),
    D.length ≤ fuel → cl = T.length + D.length →
    readBodyLoopReq fuel (streamOf D) T cl = (.ok (T ++ D), []) := by
  induction fuel with
  | zero =>
    intro T D cl hf hcl
    have hD : D = [] := List.eq_nil_of_length_eq_zero (Nat.le_zero.mp hf)
    subst hD; subst hcl
    simp [readBodyLoopReq, streamOf]
  | succ fuel ih =>
    intro T D cl hf hcl
    cases D with
    | nil =>
      subst hcl
      simp [readBodyLoopReq, streamOf]
    | cons d ds =>
      subst hcl
      have hso : streamOf (d :: ds) = [d :: ds] := by simp [streamOf]
      have hsr := streamRead_single (d :: ds) (min 512 (T.length + (d :: ds).length))
      simp only [readBodyLoopReq, hso, hsr]
      rw [if_neg (by simp only [List.length_cons]; omega),
        if_neg (by simp only [List.length_take, List.length_cons]; omega),
        if_neg (by simp only [List.length_take, List.length_cons]; omega)]
      have h1 : ((d :: ds).drop (min 512 (T.length + (d :: ds).length))).length ≤ fuel := by
        simp only [List.length_drop, List.length_cons]
        simp only [List.length_cons] at hf
        omega
      have h2 : T.length + (d :: ds).length
          = (T ++ (d :: ds).take (min 512 (T.length + (d :: ds).length))).length
            + ((d :: ds).drop (min 512 (T.length + (d :: ds).length))).length := by
        simp only [List.length_append, List.length_take, List.length_drop, List.length_cons]
        omega
      rw [ih _ _ _ h1 h2, List.append_assoc, List.take_append_drop]

theorem readBodyLoopResp_rt_some (fuel : Nat) : ∀ (T D : List Nat) (n : Nat),
    D.length ≤ fuel → n = T.length + D.length → n ≤ MAX_BODY_SIZE →
    readBodyLoopResp fuel (streamOf D) T (some n) = (.ok (T ++ D), []) := by
  induction fuel with
  | zero =>
    intro T D n hf hn hmax
    have hD : D = [] := List.eq_nil_of_length_eq_zero (Nat.le_zero.mp hf)
    subst hD; subst hn
    simp [readBodyLoopResp, bodyCond, streamOf]
  | succ fuel ih =>
    intro T D n hf hn hmax
    cases D with
    | nil =>
      subst hn
      simp [readBodyLoopResp, bodyCond, streamOf]
    | cons d ds =>
      subst hn
      have hso : streamOf (d :: ds) = [d :: ds] := by simp [streamOf]
      have hsr := streamRead_single (d :: ds) 512
      simp only [readBodyLoopResp, hso, hsr]
      rw [if_pos (by simp only [bodyCond, decide_eq_true_eq, List.length_cons]; omega),
        if_neg (by simp only [List.length_take, List.length_cons]; omega),
        if_neg (by simp only [decide_eq_true_eq, List.length_take, List.length_cons]; omega),
        if_neg (by
          simp only [List.length_take, List.length_cons]
          simp only [MAX_BODY_SIZE] at hmax ⊢
          simp only [List.length_cons] at hmax
          omega)]
      have h1 : ((d :: ds).drop 512).length ≤ fuel := by
        simp only [List.length_drop, List.length_cons]
        simp only [List.length_cons] at hf
        omega
      have h2 : T.length + (d :: ds).length
          = (T ++ (d :: ds).take 512).length + ((d :: ds).drop 512).length := by
        simp only [List.length_append, List.length_take, List.length_drop, List.length_cons]
        omega
      rw [ih _ _ _ h1 h2 hmax, List.append_assoc, List.take_append_drop]

theorem readBodyLoopResp_rt_none (fuel : Nat) : ∀ (T D : List Nat),
    D.length < fuel → T.length + D.length ≤ MAX_BODY_SIZE →
    readBodyLoopResp fuel (streamOf D) T none = (.ok (T ++ D), []) := by
  induction fuel with
  | zero =>
    intro T D hf hmax
    exact absurd hf (Nat.not_lt_zero _)
  | succ fuel ih =>
    intro T D hf hmax
    cases D with
    | nil =>
      simp [readBodyLoopResp, bodyCond, streamOf, streamRead]
    | cons d ds =>
      have hso : streamOf (d :: ds) = [d :: ds] := by simp [streamOf]
      have hsr := streamRead_single (d :: ds) 512
      simp only [readBodyLoopResp, hso, hsr]
      rw [if_pos (by simp only [bodyCond]),
        if_neg (by simp only [List.length_take, List.length_cons]; omega),
        if_neg (by simp only [Bool.false_eq_true, not_false_eq_true]),
        if_neg (by
          simp only [List.length_take, List.length_cons]
          simp only [MAX_BODY_SIZE] at hmax ⊢
          simp only [List.length_cons] at hmax
          omega)]
      have h1 : ((d :: ds).drop 512).length < fuel := by
        simp only [List.length_drop, List.length_cons]
        simp only [List.length_cons] at hf
        omega
      have h2 : (T ++ (d :: ds).take 512).length + ((d :: ds).drop 512).length
          ≤ MAX_BODY_SIZE := by
        simp only [List.length_append, List.length_take, List.length_drop, List.length_cons]
        simp only [MAX_BODY_SIZE] at hmax ⊢
        simp only [List.length_cons] at hmax
        omega
      rw [ih _ _ h1 h2, List.append_assoc, List.take_append_drop]

theorem getContentLength_body (r : Request) (x : List Nat) :
    getContentLength { r with body := x } = getContentLength r := rfl

theorem getContentLengthResp_body (r : Response) (x : List Nat) :
    getContentLengthResp { r with body := x } = getContentLengthResp r := rfl

theorem request_eta_body (r : Request) (x : List Nat) (h : r.body = x) :
    ({ r with body := x } : Request) = r := by
  rcases r with ⟨m, u, hs, bd⟩
  dsimp only at h
  subst h
  rfl

theorem response_eta_body (r : Response) (x : List Nat) (h : r.body = x) :
    ({ r with body := x } : Response) = r := by
  rcases r with ⟨st, hs, bd⟩
  dsimp only at h
  subst h
  rfl

theorem readRequestFromStream_rt (r : Request) (h : validRequest r = true) :
    readRequestFromStream [serializeRequest r] = (.ok r, []) := by
  simp only [validRequest, Bool.and_eq_true, decide_eq_true_eq] at h
  obtain ⟨⟨⟨⟨hline, hh⟩, hc⟩, hlen⟩, hcl⟩ := h
  have hhead := readHeadersReq_single r r.body hline hh hc hlen
  simp only [readRequestFromStream, serializeRequest, hhead]
  cases hgc : getContentLength r with
  | error e =>
    simp only [contentLengthConsistent, hgc, Bool.false_eq_true] at hcl
  | ok o =>
    cases o with
    | none =>
      simp only [contentLengthConsistent, hgc] at hcl
      have hb : r.body = [] := by
        cases hbb : r.body with
        | nil => rfl
        | cons a t => rw [hbb] at hcl; simp at hcl
      rw [getContentLength_body, hgc, hb, List.take_nil, List.drop_nil,
        request_eta_body r [] hb]
      rfl
    | some n =>
      simp only [contentLengthConsistent, hgc, Bool.and_eq_true, beq_iff_eq,
        decide_eq_true_eq] at hcl
      obtain ⟨hn, hmax⟩ := hcl
      simp only [getContentLength_body, hgc]
      rw [if_neg (by omega)]
      have hsum : n = (r.body.take (MAX_HEADERS_SIZE - (serializeRequestHead r).length)).length
          + (r.body.drop (MAX_HEADERS_SIZE - (serializeRequestHead r).length)).length := by
        rw [List.length_take, List.length_drop]
        omega
      have hrt := readBodyLoopReq_rt
        ((r.body.drop (MAX_HEADERS_SIZE - (serializeRequestHead r).length)).length + 1)
        (r.body.take (MAX_HEADERS_SIZE - (serializeRequestHead r).length))
        (r.body.drop (MAX_HEADERS_SIZE - (serializeRequestHead r).length))
        n (Nat.le_succ _) hsum
      rw [List.take_append_drop] at hrt
      simp only [readBodyReq, streamLen_streamOf, hrt]

theorem readResponseFromStream_rt (m : List Nat) (r : Response)
    (h : validResponse m r = true) :
    readResponseFromStream [serializeResponse r] m = (.ok r, []) := by
  simp only [validResponse, Bool.and_eq_true, decide_eq_true_eq] at h
  obtain ⟨⟨⟨⟨⟨hst1, hst2⟩, hh⟩, hc⟩, hlen⟩, hbody⟩ := h
  have hhead := readHeadersResp_single r r.body hst1 hst2 hh hc hlen
  simp only [readResponseFromStream, serializeResponse, hhead]
  cases hsk : skipBody m r.status with
  | true =>
    simp only [hsk, if_true] at hbody
    have hb : r.body = [] := by
      cases hbb : r.body with
      | nil => rfl
      | cons a t => rw [hbb] at hbody; simp at hbody
    rw [if_pos rfl, hb, List.take_nil, List.drop_nil, response_eta_body r [] hb]
    rfl
  | false =>
    simp only [hsk, Bool.false_eq_true, if_false] at hbody
    rw [if_neg Bool.false_ne_true]
    cases hgc : getContentLengthResp r with
    | error e =>
      simp only [contentLengthConsistentResp, hgc, Bool.false_eq_true] at hbody
    | ok o =>
      cases o with
      | none =>
        simp only [contentLengthConsistentResp, hgc, decide_eq_true_eq] at hbody
        have hrt := readBodyLoopResp_rt_none
          ((r.body.drop (MAX_HEADERS_SIZE - (serializeResponseHead r).length)).length + 1)
          (r.body.take (MAX_HEADERS_SIZE - (serializeResponseHead r).length))
          (r.body.drop (MAX_HEADERS_SIZE - (serializeResponseHead r).length))
          (Nat.lt_succ_self _)
          (by rw [List.length_take, List.length_drop]; omega)
        rw [List.take_append_drop] at hrt
        simp only [readBodyResp, getContentLengthResp_body, hgc, streamLen_streamOf, hrt]
      | some n =>
        simp only [contentLengthConsistentResp, hgc, Bool.and_eq_true, beq_iff_eq,
          decide_eq_true_eq] at hbody
        obtain ⟨hn, hmax⟩ := hbody
        have hsum : n = (r.body.take (MAX_HEADERS_SIZE - (serializeResponseHead r).length)).length
            + (r.body.drop (MAX_HEADERS_SIZE - (serializeResponseHead r).length)).length := by
          rw [List.length_take, List.length_drop]
          omega
        have hrt := readBodyLoopResp_rt_some
          ((r.body.drop (MAX_HEADERS_SIZE - (serializeResponseHead r).length)).length + 1)
          (r.body.take (MAX_HEADERS_SIZE - (serializeResponseHead r).length))
          (r.body.drop (MAX_HEADERS_SIZE - (serializeResponseHead r).length))
          n (Nat.le_succ _) hsum hmax
        rw [List.take_append_drop] at hrt
        simp only [readBodyResp, getContentLengthResp_body, hgc, streamLen_streamOf, hrt]

/-- Claim C6: framing round trip.  For every valid HTTP/1.1 message, parsing
the byte sequence produced by serializing it (`write_to_stream`) yields the
original message back: on the request side `request::read_from_stream`
applied to the serialized bytes returns `Ok` of the original request and
consumes the whole stream, and on the response side likewise
`response::read_from_stream` for any originating method consistent with the
message.  The codec keeps headers in insertion order on both sides, so the
round trip is exact equality (in particular equality up to reordering of
headers with different names). -/
theorem c6_roundtrip :
    (∀ r : Request, validRequest r = true →
      readRequestFromStream [serializeRequest r] = (.ok r, [])) ∧
    (∀ (m : List Nat) (r : Response), validResponse m r = true →
      readResponseFromStream [serializeResponse r] m = (.ok r, [])) :=
  ⟨readRequestFromStream_rt, readResponseFromStream_rt⟩

/-- Witness for C6: a concrete GET request with a `host` header and an empty
body round trips, and a concrete 200 response with `content-length: 3` and
body `abc` round trips. -/
theorem c6_roundtrip_witness :
    readRequestFromStream
        [serializeRequest
          { method := strBytes ("GET"), uri := strBytes ("/"),
            headers := [(strBytes ("host"), strBytes ("example.com"))], body := [] }]
      = (.ok
          { method := strBytes ("GET"), uri := strBytes ("/"),
            headers := [(strBytes ("host"), strBytes ("example.com"))], body := [] }, []) ∧
    readResponseFromStream
        [serializeResponse
          { status := 200,
            headers := [(strBytes ("content-length"), strBytes ("3"))],
            body := strBytes ("abc") }]
        (strBytes ("GET"))
      = (.ok
          { status := 200,
            headers := [(strBytes ("content-length"), strBytes ("3"))],
            body := strBytes ("abc") }, []) :=
  ⟨c6_roundtrip.1
      { method := strBytes ("GET"), uri := strBytes ("/"),
        headers := [(strBytes ("host"), strBytes ("example.com"))], body := [] } (by decide),
    c6_roundtrip.2 (strBytes ("GET"))
      { status := 200,
        headers := [(strBytes ("content-length"), strBytes ("3"))],
        body := strBytes ("abc") } (by decide)⟩
